import Mathlib

/-!
Verification of the selector-healing / workflow-execution core of the
qaaiagent repository, as a shallow embedding in Lean 4.

Modelling conventions:
* JavaScript strings are Lean `String`s; `undefined`/`null`-able values are
  `Option`s; JS falsy checks on strings are explicit emptiness tests.
* The cheerio HTML library is external to the repository.  A loaded cheerio
  document is modelled at its interface: a value that can answer selector
  queries (`CheerioDom`, used by `selfHealing.js`'s resolution and diff
  functions, whose inputs are the results of `safeCheerioLoad`: `none`
  models a non-string / empty / unparseable snapshot) and, for the snapshot
  stamping pipeline, an abstract document type with the operations
  `stampDomSnapshot` / `buildDynamicDomSnapshots` actually perform on it
  (`DomLib`).
* The WHATWG `new URL(u).hostname` of Node is modelled by `parseHostname`,
  a concrete scheme-authority extractor (hostname lowercased, as Node does).
* `Date.now()` timestamps and `toISOString()` values are explicit parameters.
-/

/-! ## Character-level string helpers -/

/-- JS whitespace for the purposes of `parseInt` / `trim` modelling. -/
def isJsWs (c : Char) : Bool :=
  c = ' ' || c = '\t' || c = '\n' || c = '\r'

/-- Drops leading then trailing JS whitespace. -/
def jsTrimChars (cs : List Char) : List Char :=
  ((cs.dropWhile isJsWs).reverse.dropWhile isJsWs).reverse

/-- Character-level model of JS `s.trim()` (Lean's byte-based `String.trim`
is not kernel-reducible, so the model works on the character list). -/
def jsTrim (s : String) : String :=
  String.mk (jsTrimChars s.data)

/-- Character-level `startsWith`. -/
def strStartsWith (s p : String) : Bool :=
  p.data.isPrefixOf s.data

/-- Character-level `endsWith`. -/
def strEndsWith (s p : String) : Bool :=
  p.data.isSuffixOf s.data

/-- Character-level `toLowerCase()` (ASCII, as the guard's inputs are
hostnames). -/
def strToLower (s : String) : String :=
  String.mk (s.data.map Char.toLower)

/-- Splits a character list at the first occurrence of `pat`, returning the
parts before and after it; `none` when `pat` does not occur. -/
def splitAtSub (pat : List Char) : List Char → Option (List Char × List Char)
  | [] => none
  | c :: rest =>
    if pat.isPrefixOf (c :: rest) then some ([], (c :: rest).drop pat.length)
    else (splitAtSub pat rest).map (fun pr => (c :: pr.1, pr.2))

/-! ## Domain guard (src/backend/src/services/qaAgent/ciService.js) -/

/-- Model of `new URL(urlText).hostname` for the cases the guard relies on:
a URL is well formed when it has a nonempty scheme before `"://"` and a
nonempty host in its authority; the hostname is returned lowercased (Node's
`URL` lowercases the host).  `none` models the `new URL` constructor
throwing on a malformed URL. -/
def parseHostname (url : String) : Option String :=
  match splitAtSub "://".data url.data with
  | none => none
  | some (scheme, remainder) =>
    if scheme.isEmpty then none
    else
      let authority :=
        remainder.takeWhile (fun c => c ≠ '/' && c ≠ '?' && c ≠ '#')
      let hostPort :=
        if authority.contains '@' then
          (authority.reverse.takeWhile (fun c => c ≠ '@')).reverse
        else authority
      let host := hostPort.takeWhile (fun c => c ≠ ':')
      if host.isEmpty then none
      else some (String.mk (host.map Char.toLower))

/-- Models `hostname.replace(/^www\./, '')` -/
def stripWww (h : String) : String :=
  if strStartsWith h "www." then String.mk (h.data.drop 4) else h

/-- Models `isUrlAllowed(urlText, allowedDomains)` from `ciService.js` lines 221-231:
empty (or non-array, not representable here) allow-list means allowed; else
the hostname is extracted (fail ⇒ false), `www.` is stripped, lowercased,
and matched exactly or as a `.`-subdomain suffix against the entries. -/
def isUrlAllowed (urlText : String) (allowedDomains : List String) : Bool :=
  if allowedDomains.isEmpty then true
  else
    match parseHostname urlText with
    | none => false
    | some hn =>
      let hostname := strToLower (stripWww hn)
      allowedDomains.any (fun domain =>
        hostname == domain || strEndsWith hostname ("." ++ domain))

/-! ## Workflow step schema (src/backend/src/rpaAgent.js) -/

/-- A workflow step as submitted (all fields untrusted). -/
structure RpaStepInput where
  action : String
  selector : Option String
  value : Option String
  attrName : Option String
deriving DecidableEq

/-- The zod `rpaStepSchema`: `action` must be one of the five verbs;
`selector`, if present, trims to 1..500 chars; `value`, if present, trims to
at most 4000 chars; `attribute`, if present, trims to at most 120 chars.
No per-action field requirements exist in the schema. -/
def rpaStepSchemaCheck (s : RpaStepInput) : Bool :=
  (["goto", "click", "type", "extract", "wait"].contains s.action)
  && (match s.selector with
      | none => true
      | some v => decide (1 ≤ (jsTrim v).length) && decide ((jsTrim v).length ≤ 500))
  && (match s.value with
      | none => true
      | some v => decide ((jsTrim v).length ≤ 4000))
  && (match s.attrName with
      | none => true
      | some v => decide ((jsTrim v).length ≤ 120))


/-- Digits-to-Int helper for `jsParseInt`. -/
def digitsToInt (ds : List Char) : Int :=
  ds.foldl (fun acc c => acc * 10 + (c.toNat - '0'.toNat)) 0

/-- The result of JS `Number.parseInt`: a double, which for the purposes of
the wait branch is `NaN`, an infinity, or a finite value. -/
inductive JsNumber
  | nan
  | posInf
  | negInf
  | finite (n : Int)
deriving DecidableEq

/-- The smallest integer magnitude an IEEE-754 double conversion rounds to
infinity: `Number.MAX_VALUE` is `2^1024 - 2^971` and round-to-nearest-even
sends every value at or above the halfway point `2^1024 - 2^970` to
`Infinity` — JS `parseInt` of a numeral of roughly 309 or more digits
returns `Infinity`. -/
def jsOverflowBound : Int :=
  179769313486231580793728971405303415079934132710037826936173778980444968292764750946649017977587207096330286416692887910946555547851940402630657488671505820681908902000708383676273854845817711531764475730270069855571366959622842914819860834936475292719074168444365510704342711559699508093042880177904174497792

/-- Model of JS `Number.parseInt(s, 10)`: skip leading whitespace, optional
sign, then a maximal run of decimal digits; no digit models `NaN`, and a
numeral whose magnitude reaches `jsOverflowBound` overflows the double
range to the corresponding infinity.  In the finite case the model keeps
the exact integer: the double rounding error (possible only above `2^53`)
never moves a value across the 200 / 30000 clamp bounds of the wait branch,
and finiteness — the only property `Number.isFinite` inspects — is modelled
exactly. -/
def jsParseInt (s : String) : JsNumber :=
  let t := s.data.dropWhile isJsWs
  let (sign, t) : Int × List Char :=
    match t with
    | '-' :: rest => (-1, rest)
    | '+' :: rest => (1, rest)
    | _ => (1, t)
  let digits := t.takeWhile (fun c => c.isDigit)
  if digits.isEmpty then JsNumber.nan
  else
    let n := sign * digitsToInt digits
    if n ≥ jsOverflowBound then JsNumber.posInf
    else if n ≤ -jsOverflowBound then JsNumber.negInf
    else JsNumber.finite n

/-- The executed delay of a `wait` step (`rpaExecutor` `executeSingleStep`,
`action === 'wait'` branch): `parseInt(String(value || '2000'), 10)`, then
`Number.isFinite(waitMs) ? Math.min(Math.max(waitMs, 200), 30000) : 2000` —
the guard rejects `NaN` and both infinities alike. -/
def waitDelayMs (value : Option String) : Nat :=
  let raw := match value with
    | some v => if v.isEmpty then "2000" else v
    | none => "2000"
  match jsParseInt raw with
  | .finite n => (min (max n 200) 30000).toNat
  | _ => 2000

/-! ## Selector healing (src/backend/src/selfHealing.js) — query level

A cheerio document is modelled at the interface `selfHealing.js` uses for
resolution and diffing: `query sel` is `$(sel).length` (`none` models the
query throwing on a selector cheerio cannot parse), and `ids`, `classes`,
`tags` are the raw streams `collectDomStats` builds its sets / counts from
(ids and class tokens in document order, possibly with duplicates, and the
per-tag counts of `<body> *`).  An `Option CheerioDom` is the result of
`safeCheerioLoad`: `none` for a non-string, empty or unparseable snapshot. -/
structure CheerioDom where
  query : String → Option Nat
  ids : List String
  classes : List String
  tags : List (String × Nat)

/-- Models `normalizeSelectorForDom`: non-string (not representable) or blank
selectors and Playwright `text=` selectors are rejected; otherwise trimmed. -/
def normalizeSelectorForDom (selector : String) : Option String :=
  let trimmed := jsTrim selector
  if trimmed.isEmpty then none
  else if strStartsWith trimmed "text=" then none
  else some trimmed

/-- Models `selectorExists($, selector)`: normalize, query, `length > 0`; any query
error (modelled by `query` returning `none`) yields `false`. -/
def selectorExists (d : CheerioDom) (selector : String) : Bool :=
  match normalizeSelectorForDom selector with
  | none => false
  | some normalized =>
    match d.query normalized with
    | none => false
    | some len => decide (0 < len)

/-- A selector-map entry `{exactSelector, primary, fallbacks}`. `primary`
is `Option` because `resolveSelectorEntry` tolerates its absence. -/
structure SelectorEntry where
  exactSelector : String
  primary : Option String
  fallbacks : List String
deriving DecidableEq

/-- Models `entry && entry.primary ? entry.primary : null` — the empty string is
falsy in JS. -/
def jsPrimary (entry : SelectorEntry) : Option String :=
  match entry.primary with
  | none => none
  | some p => if p.isEmpty then none else some p

/-- The result object of `resolveSelectorEntry`. -/
structure SelectorResolution where
  usedSelector : Option String
  matched : Bool
  healed : Bool
  attempts : List (String × Bool)
  reason : Option String
deriving DecidableEq

/-- The `for (const candidate of candidates)` loop of `resolveSelectorEntry`:
first candidate with `selectorExists` wins; `healed` is `candidate !== primary`
(a JS string is never `===` to `null`, hence the `Option` comparison). -/
def resolveCandidates (d : CheerioDom) (primary : Option String) :
    List String → SelectorResolution
  | [] => ⟨none, false, false, [], none⟩
  | c :: rest =>
    if selectorExists d c then
      ⟨some c, true, some c != primary, [(c, true)], none⟩
    else
      let r := resolveCandidates d primary rest
      { r with attempts := (c, false) :: r.attempts }

/-- Models `resolveSelectorEntry(entry, domHtml)`: unavailable snapshot gives the
fixed unresolved result; otherwise `[primary, ...fallbacks].filter(Boolean)`
is scanned in order. -/
def resolveSelectorEntry (entry : SelectorEntry) (dom : Option CheerioDom) :
    SelectorResolution :=
  match dom with
  | none => ⟨none, false, false, [], some "DOM snapshot unavailable"⟩
  | some d =>
    let primary := jsPrimary entry
    let candidates :=
      (primary.toList ++ entry.fallbacks).filter (fun c => !c.isEmpty)
    resolveCandidates d primary candidates

/-- The accumulator object of `runSelectorHealing`. -/
structure HealingRun where
  perSelector : List (String × SelectorResolution)
  healedCount : Nat
  unresolvedCount : Nat
  primaryMatchedCount : Nat
  total : Nat

/-- The per-entry counter updates of `runSelectorHealing`'s `forEach`
(matched heals vs matched primary vs unresolved), folded over the entries. -/
def healTallies (dom : Option CheerioDom) :
    List (String × SelectorEntry) → Nat × Nat × Nat
  | [] => (0, 0, 0)
  | (_, config) :: rest =>
    let t := healTallies dom rest
    let resolved := resolveSelectorEntry config dom
    if resolved.matched then
      if resolved.healed then (t.1 + 1, t.2.1, t.2.2)
      else (t.1, t.2.1, t.2.2 + 1)
    else (t.1, t.2.1 + 1, t.2.2)

/-- Models `runSelectorHealing(selectorMap, domHtml)`: resolves every entry against
the snapshot, tallying healed / unresolved / primary-matched, with
`total = entries.length`. -/
def runSelectorHealing (selectorMap : List (String × SelectorEntry))
    (dom : Option CheerioDom) : HealingRun :=
  let t := healTallies dom selectorMap
  { perSelector :=
      selectorMap.map (fun e => (e.1, resolveSelectorEntry e.2 dom))
    healedCount := t.1
    unresolvedCount := t.2.1
    primaryMatchedCount := t.2.2
    total := selectorMap.length }

/-- Models `collectDomStats`: tag counts as built, ids and class tokens deduplicated
by the `Set`s (insertion order, first occurrence kept). -/
structure DomStats where
  tags : List (String × Nat)
  ids : List String
  classes : List String
deriving DecidableEq

/-- Models `collectDomStats($)` over the modelled document streams. -/
def collectDomStats (d : CheerioDom) : DomStats :=
  { tags := d.tags, ids := d.ids.dedup, classes := d.classes.dedup }

/-- The `{added, removed}` pair of `diffArray`. -/
structure ArrayDiff where
  added : List String
  removed : List String
deriving DecidableEq

/-- Models `diffArray(before, after)`: set-difference both ways (the JS `Set`s are
modelled by `dedup`; iteration is insertion order). -/
def diffArray (before after : List String) : ArrayDiff :=
  let beforeSet := before.dedup
  let afterSet := after.dedup
  { added := afterSet.filter (fun v => !beforeSet.contains v)
    removed := beforeSet.filter (fun v => !afterSet.contains v) }

/-- One `{tag, before, after, delta}` record of `diffTagCounts`. -/
structure TagDelta where
  tag : String
  before : Nat
  after : Nat
  delta : Int
deriving DecidableEq

/-- Models `beforeTags[tag] || 0` — assoc-list lookup with default 0. -/
def tagCount (tags : List (String × Nat)) (tag : String) : Nat :=
  match tags.lookup tag with
  | some n => n
  | none => 0

/-- Models `diffTagCounts(beforeTags, afterTags)`: every key of either map whose
count changed, with its delta. -/
def diffTagCounts (beforeTags afterTags : List (String × Nat)) :
    List TagDelta :=
  let keys := (beforeTags.map Prod.fst ++ afterTags.map Prod.fst).dedup
  keys.filterMap (fun tag =>
    let b := tagCount beforeTags tag
    let a := tagCount afterTags tag
    if b ≠ a then some ⟨tag, b, a, (a : Int) - (b : Int)⟩ else none)

/-- The structural diff object of `diffDom`. -/
structure DomDiff where
  ids : ArrayDiff
  classes : ArrayDiff
  tags : List TagDelta
deriving DecidableEq

/-- Models `diffDom(beforeHtml, afterHtml)`: `null` when either snapshot fails to
load, else the id / class / tag-count diff of the collected stats. -/
def diffDom (before after : Option CheerioDom) : Option DomDiff :=
  match before, after with
  | some b, some a =>
    let sb := collectDomStats b
    let sa := collectDomStats a
    some { ids := diffArray sb.ids sa.ids
           classes := diffArray sb.classes sa.classes
           tags := diffTagCounts sb.tags sa.tags }
  | _, _ => none

/-! ## Flow authoring: selector mapping (src/backend/src/flows.js) -/

/-- Character class of the id-capture regex `/#([A-Za-z0-9\-_]+)/`. -/
def isIdChar (c : Char) : Bool :=
  (c ≥ 'A' && c ≤ 'Z') || (c ≥ 'a' && c ≤ 'z') || c.isDigit || c = '-' || c = '_'

/-- Models `selector.match(/#([A-Za-z0-9\-_]+)/)`: first position where a `#` is
followed by at least one id character yields the maximal run as capture. -/
def extractIdCapture : List Char → Option String
  | [] => none
  | '#' :: rest =>
    let run := rest.takeWhile isIdChar
    if run.isEmpty then extractIdCapture rest else some (String.mk run)
  | _ :: rest => extractIdCapture rest

/-- Does `cs` start with the literal `[name="`? -/
def nameLitHead (cs : List Char) : Bool :=
  (String.mk (cs.take 7)) == "[name=\""

/-- Models `selector.match(/\[name="([^"]+)"\]/)`: first position where the literal
`[name="` is followed by one or more non-quote characters, a quote and `]`;
the capture is the maximal non-quote run (the only viable one). -/
def extractNameCapture : List Char → Option String
  | [] => none
  | c :: rest =>
    if nameLitHead (c :: rest) then
      let body := (c :: rest).drop 7
      let cap := body.takeWhile (fun ch => ch ≠ '"')
      if !cap.isEmpty && (String.mk (body.drop cap.length |>.take 2)) == "\"]" then
        some (String.mk cap)
      else extractNameCapture rest
    else extractNameCapture rest

/-- The entry `mapSelectors` builds for one recorded selector: the exact
recorded selector is kept as `primary`; the id- and name-derived candidates
(when the regexes match) form `fallbacks`, deduplicated by the JS `Set`. -/
def selectorEntryFor (selector : String) : SelectorEntry :=
  let idCand := match extractIdCapture selector.data with
    | some id => ["#" ++ id]
    | none => []
  let nameCand := match extractNameCapture selector.data with
    | some nm => ["[name=\"" ++ nm ++ "\"]"]
    | none => []
  let candidates := [selector] ++ idCand ++ nameCand
  { exactSelector := selector
    primary := some selector
    fallbacks := (candidates.drop 1).dedup }

/-- Models `mapSelectors(events)`: events without a (truthy) selector are skipped;
each remaining selector is keyed to its entry.  The JS object collapses a
selector recorded twice onto one key, but the entry depends only on the
selector string, so repeated keys carry identical entries and the raw keyed
list is an equivalent model. -/
def mapSelectors (events : List (Option String)) :
    List (String × SelectorEntry) :=
  events.filterMap (fun sel? =>
    match sel? with
    | none => none
    | some s => if s.isEmpty then none else some (s, selectorEntryFor s))

/-! ## Workflow executor (src/backend/src/services/rpaExecutor.js)

The executor drives a Playwright page; the outcome of one attempt of one
step (navigation, element lookup, typing, the domain-guard checks inside
`executeSingleStep`) is the boundary with the browser and is modelled by an
oracle `Nat → Nat → StepAttemptResult` (step index ↦ 1-based attempt number ↦
outcome).  The error kinds are the failure classes named by the spec. -/

inductive StepErrorKind
  | domainBlocked
  | elementNotFound
  | actionTimeout
  | otherFailure
deriving DecidableEq

inductive StepAttemptResult
  | success
  | failure (kind : StepErrorKind)
deriving DecidableEq

/-- Whether an attempt outcome is a success. -/
def isSuccessAttempt : StepAttemptResult → Bool
  | .success => true
  | .failure _ => false

/-- The message `executeSingleStep`'s throw sites attach, per kind (the
domain-guard messages of the `goto`/`click`/`type`/`extract` branches are
collapsed onto their kind). -/
def stepErrorText : StepErrorKind → String
  | .domainBlocked => "URL domain is not allowed."
  | .elementNotFound => "Element not found."
  | .actionTimeout => "Action timed out."
  | .otherFailure => "Step failed."

/-- Models `` `Step ${index + 1}: ...` `` -/
def stepErrorMessage (stepIdx : Nat) (kind : StepErrorKind) : String :=
  "Step " ++ toString (stepIdx + 1) ++ ": " ++ stepErrorText kind

/-- One entry of the run's `logs` array (the modelled subset of its meta:
the attempt counter and the `willRetry` flag of step-failure warnings). -/
structure LogEntry where
  level : String
  message : String
  action : Option String
  attempt : Option Nat
  willRetry : Option Bool
deriving DecidableEq

/-- Models `emit('info', 'Executing step i/n', {action, attempt})` -/
def mkExecutingLog (stepIdx total attemptNo : Nat) (action : String) :
    LogEntry :=
  ⟨"info",
    "Executing step " ++ toString (stepIdx + 1) ++ "/" ++ toString total,
    some action, some attemptNo, none⟩

/-- Models `emit('info', 'Step i completed', {action})` -/
def mkStepCompletedLog (stepIdx : Nat) (action : String) : LogEntry :=
  ⟨"info", "Step " ++ toString (stepIdx + 1) ++ " completed",
    some action, none, none⟩

/-- Models `emit('warn', 'Step i failed', {action, error, attempt, willRetry})` -/
def mkStepFailedLog (stepIdx : Nat) (action : String) (attemptNo : Nat)
    (willRetry : Bool) : LogEntry :=
  ⟨"warn", "Step " ++ toString (stepIdx + 1) ++ " failed",
    some action, some attemptNo, some willRetry⟩

/-- The observable trace of one step's retry loop: its log entries, the
`wait(400 * attempt)` backoff delays in order, and the propagated error of
the last attempt if every attempt failed. -/
structure StepTrace where
  logs : List LogEntry
  waits : List Nat
  error : Option StepErrorKind
deriving DecidableEq

/-- The `while (!done && attempt <= stepRetries)` loop of `executeWorkflow`,
lines 319-351.  `attemptNo` is the 1-based value of `attempt` inside the
iteration; `fuel` is `stepRetries + 1 - (attemptNo - 1)`, the number of
iterations the guard still admits, so `fuel = 1` exactly when
`isLastAttempt = attempt > stepRetries` holds in the catch block. -/
def stepLoopGo (o : Nat → StepAttemptResult) (stepIdx total : Nat)
    (action : String) : Nat → Nat → StepTrace
  | _, 0 => ⟨[], [], none⟩
  | attemptNo, fuel + 1 =>
    match o attemptNo with
    | .success =>
      ⟨[mkExecutingLog stepIdx total attemptNo action,
        mkStepCompletedLog stepIdx action], [], none⟩
    | .failure kind =>
      if fuel = 0 then
        ⟨[mkExecutingLog stepIdx total attemptNo action,
          mkStepFailedLog stepIdx action attemptNo false], [], some kind⟩
      else
        let r := stepLoopGo o stepIdx total action (attemptNo + 1) fuel
        ⟨mkExecutingLog stepIdx total attemptNo action
            :: mkStepFailedLog stepIdx action attemptNo true :: r.logs,
          400 * attemptNo :: r.waits, r.error⟩

/-- The per-step retry loop: attempts start at 1 with `stepRetries + 1`
admissible iterations. -/
def stepLoop (o : Nat → StepAttemptResult) (stepRetries stepIdx total : Nat)
    (action : String) : StepTrace :=
  stepLoopGo o stepIdx total action 1 (stepRetries + 1)

/-- Number of attempts actually executed in a trace: the `Executing step`
info logs are the only info entries carrying an `attempt` meta. -/
def executedAttempts (t : StepTrace) : Nat :=
  t.logs.countP (fun e => e.level == "info" && e.attempt.isSome)

/-- First 1-based attempt index `≤ n` at which the oracle succeeds. -/
def firstSuccessWithin (o : Nat → StepAttemptResult) : Nat → Option Nat
  | 0 => none
  | n + 1 =>
    match firstSuccessWithin o n with
    | some a => some a
    | none => if isSuccessAttempt (o (n + 1)) then some (n + 1) else none

/-- The trace of the `for (let index = 0; ...)` loop over the workflow's
steps: traces concatenate until a step propagates its error. -/
def runStepsGo (oc : Nat → Nat → StepAttemptResult) (stepRetries total : Nat) :
    List String → Nat → List LogEntry × List Nat × Option (Nat × StepErrorKind)
  | [], _ => ([], [], none)
  | action :: rest, idx =>
    let t := stepLoop (oc idx) stepRetries idx total action
    match t.error with
    | some kind => (t.logs, t.waits, some (idx, kind))
    | none =>
      let r := runStepsGo oc stepRetries total rest (idx + 1)
      (t.logs ++ r.1, t.waits ++ r.2.1, r.2.2)

/-- All steps of a workflow, in order. -/
def runSteps (oc : Nat → Nat → StepAttemptResult) (stepRetries : Nat)
    (actions : List String) :
    List LogEntry × List Nat × Option (Nat × StepErrorKind) :=
  runStepsGo oc stepRetries actions.length actions 0

/-- The run record `executeWorkflow` resolves with (the modelled subset:
screenshots, console logs, extracted data and timestamps omitted). -/
structure RunRecord where
  status : String
  logs : List LogEntry
  error : Option String
deriving DecidableEq

/-- Models `` `Execution timed out after ${maxExecutionMs}ms` `` — the message of
the rejection the deadline timer produces in the `Promise.race`. -/
def timeoutMessage (maxExecutionMs : Nat) : String :=
  "Execution timed out after " ++ toString maxExecutionMs ++ "ms"

/-- Models `emit('info', 'Starting RPA execution', ...)` -/
def startingLog : LogEntry :=
  ⟨"info", "Starting RPA execution", none, none, none⟩

/-- Models `emit('info', 'RPA execution completed')` -/
def runCompletedLog : LogEntry :=
  ⟨"info", "RPA execution completed", none, none, none⟩

/-- Models `emit('error', 'RPA execution failed: ...')` -/
def runFailedLog (message : String) : LogEntry :=
  ⟨"error", "RPA execution failed: " ++ message, none, none, none⟩

/-- Models `executeWorkflow` (lines 265-419): the `run()` task executes the steps
and resolves a `completed` record; `Promise.race` pits it against the
`maxExecutionMs` timer (`deadlineFires` says the timer rejected first — the
concurrency of the race is reduced to its winner); the catch block turns any
rejection into a `failed` record carrying the error message; the finally
block closes the browser when one was launched, with `close()` failures
swallowed by `.catch(() => {})` so they cannot reach the returned record.
Returns the record, whether the browser session was released, and whether
the close call itself succeeded. -/
def executeWorkflow (oc : Nat → Nat → StepAttemptResult)
    (actions : List String) (stepRetries maxExecutionMs : Nat)
    (deadlineFires launched closeFails : Bool) :
    RunRecord × Bool × Bool :=
  let t := runSteps oc stepRetries actions
  let raced : Except String (List LogEntry) :=
    if deadlineFires then Except.error (timeoutMessage maxExecutionMs)
    else
      match t.2.2 with
      | some (idx, kind) => Except.error (stepErrorMessage idx kind)
      | none => Except.ok (startingLog :: t.1 ++ [runCompletedLog])
  let record : RunRecord :=
    match raced with
    | .ok logs => { status := "completed", logs := logs, error := none }
    | .error m =>
      { status := "failed"
        logs := startingLog :: t.1 ++ [runFailedLog m]
        error := some m }
  (record, launched, launched && !closeFails)

/-! ## Snapshot stamping (src/backend/src/selfHealing.js, lines 14-184)

The stamping pipeline parses, mutates and re-serializes HTML through
cheerio.  The library is modelled as an abstract document type `DomLib.Doc`
with exactly the operations the pipeline performs; the facts about cheerio
the distinctness argument needs are isolated in `DomLibSpec`.  `jsTrim` is a
character-level model of JS `String.prototype.trim`. -/

/-- The `instructionDetails` object consumed by `applyInstructionEffects`
and `buildCurrentStateDom`. -/
structure InstructionDetails where
  needsLogin : Bool
  clickLogin : Bool
  emailValue : Option String
  passwordValue : Option String

/-- The interface of the cheerio HTML library as used by the stamping
pipeline.  `parse` is `cheerio.load` (`none` when loading throws);
`serialize` is `$.html()`; `hasBody` is `$('body').length > 0`;
`getBodyAttr`/`setBodyAttr` read and write attributes of the body element;
`appendToBody` is `$('body').append(html)`; `markResolved`,
`applyLoginEffects` and `markAfterNodes` are the node-level mutation loops
of `markResolvedSelectors`, the login-field filling of
`applyInstructionEffects` (returning the `emailFilled`/`passwordFilled`/
`submitMarked` flags), and the marking loop of `synthesizeDomAfter`
(returning the `marked` counter); `queryView` is the selector-query
interface of the document, as re-loaded from its serialization. -/
structure DomLib where
  Doc : Type
  parse : String → Option Doc
  serialize : Doc → String
  hasBody : Doc → Bool
  getBodyAttr : Doc → String → Option String
  setBodyAttr : Doc → String → String → Doc
  appendToBody : Doc → String → Doc
  markResolved : Doc → List (String × SelectorResolution) → Doc
  applyLoginEffects : Doc → InstructionDetails → Doc × Bool × Bool × Bool
  markAfterNodes : Doc → List (String × SelectorEntry) → Doc × Nat
  queryView : Doc → CheerioDom

/-- Models `safeCheerioLoad(html)`: a non-string (not representable), empty
or whitespace-only snapshot yields `null`, as does a throwing load. -/
def safeCheerioLoad (lib : DomLib) (html : String) : Option lib.Doc :=
  if jsTrim html = "" then none else lib.parse html

/-- The body attribute `stampDomSnapshot` writes the lifecycle stage to. -/
def stageKey : String := "data-self-healing-stage"

/-- The body attribute carrying the run identifier stamp. -/
def runIdKey : String := "data-self-healing-run-id"

/-- The body attribute carrying the stamping timestamp. -/
def stampedAtKey : String := "data-self-healing-stamped-at"

/-- Models the comment `stampDomSnapshot` appends when the snapshot cannot
be stamped through its body element. -/
def mkStampComment (stage runId : String) (ts : Nat) : String :=
  "\n<!-- self-healing-stage:" ++ stage ++ ";run:" ++ runId ++ ";ts:"
    ++ toString ts ++ " -->"

/-- Models `buildFallbackDom(label)`. -/
def buildFallbackDom (label : String) : String :=
  "<!doctype html><html><head><meta charset=\"utf-8\"><title>Self-Healing Snapshot</title></head><body data-self-healing-fallback=\"true\"><main><h1>"
    ++ label ++ "</h1></main></body></html>"

/-- Models `stampDomSnapshot(html, stage, runId)` (lines 14-30): when the
snapshot loads and has a body, the stage, run id and timestamp are written
as body attributes and the document re-serialized; otherwise the trimmed
input (or a fallback document when it is blank) gets a stage comment
appended.  `ts` is the `Date.now()` of the call. -/
def stampDomSnapshot (lib : DomLib) (html stage runId : String) (ts : Nat) :
    String :=
  let safeRunId := if runId.isEmpty then toString ts else runId
  let safeStage := if stage.isEmpty then "snapshot" else stage
  let viaBody : Option String :=
    match safeCheerioLoad lib html with
    | some d =>
      if lib.hasBody d then
        some (lib.serialize
          (lib.setBodyAttr
            (lib.setBodyAttr (lib.setBodyAttr d stageKey safeStage)
              runIdKey safeRunId)
            stampedAtKey (toString ts)))
      else none
    | none => none
  match viaBody with
  | some out => out
  | none =>
    let base :=
      if jsTrim html = "" then buildFallbackDom ("DOM " ++ safeStage)
      else jsTrim html
    base ++ mkStampComment safeStage safeRunId ts

/-- Models `String(bool)`. -/
def jsBool (b : Bool) : String :=
  if b then "true" else "false"

/-- Models `synthesizeDomAfter(domBefore, instruction, selectorMap)`
(lines 190-227): unparseable input degrades to the synthetic fallback
document; otherwise up to five primary selectors are marked, the body is
tagged with stage and instruction, and a synthetic marker is appended when
nothing was marked. -/
def synthesizeDomAfter (lib : DomLib) (domBefore instruction : String)
    (selectorMap : List (String × SelectorEntry)) : String :=
  match safeCheerioLoad lib domBefore with
  | none => buildFallbackDom "DOM after (synthetic)"
  | some d =>
    let marked := lib.markAfterNodes d selectorMap
    let d1 := lib.setBodyAttr marked.1 stageKey "after"
    let d2 := lib.setBodyAttr d1 "data-self-healing-instruction"
      (String.mk (instruction.data.take 160))
    let d3 :=
      if marked.2 = 0 then
        lib.appendToBody d2
          "<div id=\"self-healing-marker\">synthetic-after-state</div>"
      else d2
    lib.serialize d3

/-- Models the `summaryNode` section string of `applyInstructionEffects`. -/
def afterSummaryNode (url : String)
    (emailFilled passwordFilled submitMarked : Bool) (res : HealingRun) :
    String :=
  "<section id=\"self-healing-diagnostic-after\" data-self-healing=\"after-state\">"
    ++ "<p>url=" ++ url ++ "</p>"
    ++ "<p>emailFilled=" ++ jsBool emailFilled ++ "</p>"
    ++ "<p>passwordFilled=" ++ jsBool passwordFilled ++ "</p>"
    ++ "<p>submitMarked=" ++ jsBool submitMarked ++ "</p>"
    ++ "<p>resolvedSelectors=" ++ toString res.total ++ "</p>"
    ++ "<p>fallbackResolved=" ++ toString res.healedCount ++ "</p>"
    ++ "<p>unresolved=" ++ toString res.unresolvedCount ++ "</p>"
    ++ "</section>"

/-- Models `markResolvedSelectors($, selectorMap)` (lines 50-68): resolution
is computed against the document's own serialization and the resolved nodes
are annotated. -/
def markResolvedSelectors (lib : DomLib) (d : lib.Doc)
    (selectorMap : List (String × SelectorEntry)) : lib.Doc × HealingRun :=
  let resolution := runSelectorHealing selectorMap (some (lib.queryView d))
  (lib.markResolved d resolution.perSelector, resolution)

/-- Models `applyInstructionEffects(domHtml, instructionDetails,
selectorMap, url)` (lines 70-149), returning the produced HTML and the
selector resolution (the `summary` flags feed only the produced HTML). -/
def applyInstructionEffects (lib : DomLib) (domHtml : String)
    (details : InstructionDetails)
    (selectorMap : List (String × SelectorEntry)) (url : String) :
    String × HealingRun :=
  match safeCheerioLoad lib domHtml with
  | none =>
    (synthesizeDomAfter lib domHtml "" selectorMap,
      runSelectorHealing selectorMap none)
  | some d =>
    let marked := markResolvedSelectors lib d selectorMap
    let login :=
      if details.needsLogin then lib.applyLoginEffects marked.1 details
      else (marked.1, false, false, false)
    let summaryNode :=
      afterSummaryNode url login.2.1 login.2.2.1 login.2.2.2 marked.2
    let d1 := lib.setBodyAttr login.1 "data-self-healing-state"
      "after-diagnostic"
    (lib.serialize (lib.appendToBody d1 summaryNode), marked.2)

/-- Models the `currentNode` section string of `buildCurrentStateDom`;
`genAt` is the `toISOString()` value. -/
def currentStateNode (details : InstructionDetails) (res : HealingRun)
    (genAt : String) : String :=
  "<section id=\"self-healing-diagnostic-current\" data-self-healing=\"current-state\">"
    ++ "<p>needsLogin=" ++ jsBool details.needsLogin ++ "</p>"
    ++ "<p>clickLogin=" ++ jsBool details.clickLogin ++ "</p>"
    ++ "<p>selectorsPrimary=" ++ toString res.primaryMatchedCount ++ "</p>"
    ++ "<p>selectorsFallback=" ++ toString res.healedCount ++ "</p>"
    ++ "<p>selectorsUnresolved=" ++ toString res.unresolvedCount ++ "</p>"
    ++ "<p>generatedAt=" ++ genAt ++ "</p>"
    ++ "</section>"

/-- Models `buildCurrentStateDom(afterDomHtml, selectorResolution,
instructionDetails)` (lines 151-171). -/
def buildCurrentStateDom (lib : DomLib) (afterDomHtml : String)
    (res : HealingRun) (details : InstructionDetails) (genAt : String) :
    String :=
  match safeCheerioLoad lib afterDomHtml with
  | none => afterDomHtml ++ "\n<!-- self-healing-current-state -->"
  | some d =>
    lib.serialize (lib.appendToBody
      (lib.setBodyAttr d "data-self-healing-state" "current-diagnostic")
      (currentStateNode details res genAt))

/-- Models `buildDynamicDomSnapshots({baseDom, instructionDetails,
selectorMap, url, runId})` (lines 173-184); `ts1`/`ts2`/`ts3` are the
`Date.now()` values of the three stamping calls and `genAt` the ISO
timestamp of the current-state section. -/
def buildDynamicDomSnapshots (lib : DomLib) (baseDom : String)
    (details : InstructionDetails)
    (selectorMap : List (String × SelectorEntry)) (url runId : String)
    (ts1 ts2 ts3 : Nat) (genAt : String) : String × String × String :=
  let source :=
    if jsTrim baseDom = "" then buildFallbackDom "DOM before"
    else baseDom
  let before := stampDomSnapshot lib source "before" (runId ++ "-before") ts1
  let afterEffects := applyInstructionEffects lib source details selectorMap url
  let after :=
    stampDomSnapshot lib afterEffects.1 "after" (runId ++ "-after") ts2
  let currentRaw :=
    buildCurrentStateDom lib afterEffects.1 afterEffects.2 details genAt
  let current :=
    stampDomSnapshot lib currentRaw "current" (runId ++ "-current") ts3
  (before, after, current)

/-- The stage observation of a snapshot string: `some a` when the string
loads (per `safeCheerioLoad`) to a document that has a body whose
`data-self-healing-stage` attribute is `a`; `none` when loading fails or
there is no body — exactly the branch condition of `stampDomSnapshot`. -/
def obsStage (lib : DomLib) (s : String) : Option (Option String) :=
  match safeCheerioLoad lib s with
  | none => none
  | some d => if lib.hasBody d then some (lib.getBodyAttr d stageKey) else none

/-- The facts about the HTML library (cheerio) that the snapshot
distinctness argument relies on: serialization always yields a loadable,
body-ful document whose body attributes are those of the serialized
document; `setBodyAttr` has map semantics; appending a stage comment to the
trimmed form of a string that does not load with a body cannot make it load
with a body; the fallback documents load with a body. -/
structure DomLibSpec (lib : DomLib) : Prop where
  roundtrip : ∀ d : lib.Doc,
    obsStage lib (lib.serialize d) = some (lib.getBodyAttr d stageKey)
  setGet : ∀ (d : lib.Doc) (k v k' : String),
    lib.getBodyAttr (lib.setBodyAttr d k v) k' =
      if k' = k then some v else lib.getBodyAttr d k'
  commentAppend : ∀ (s stage runId : String) (ts : Nat),
    jsTrim s ≠ "" → obsStage lib s = none →
      obsStage lib (jsTrim s ++ mkStampComment stage runId ts) = none
  fallbackLoads : ∀ label : String,
    obsStage lib (buildFallbackDom label) ≠ none

/-! ### A concrete `DomLib` instance

Used to witness that `DomLibSpec` is satisfiable: documents are their body
attribute maps; serialization emits a self-delimiting encoding of the stage
attribute (`escChars` escapes the terminator), which `toyParse` decodes;
strings starting with `<` decode as attribute-free documents. -/

/-- Escapes `\` and the terminator `|`. -/
def escChars : List Char → List Char
  | [] => []
  | c :: rest =>
    if c = '\\' || c = '|' then '\\' :: c :: escChars rest
    else c :: escChars rest

/-- Decodes an escaped run terminated by an unescaped `|` that must end the
input; the flag records a pending escape. -/
def descanSt : Bool → List Char → Option (List Char)
  | _, [] => none
  | true, c :: rest => (descanSt false rest).map (fun v => c :: v)
  | false, c :: rest =>
    if c = '\\' then descanSt true rest
    else if c = '|' then (if rest.isEmpty then some [] else none)
    else (descanSt false rest).map (fun v => c :: v)

/-- Decodes a toy snapshot body: `N` (no stage attribute), `S…|` (escaped
stage value), or an HTML-ish string starting with `<`. -/
def toyDecode (l : List Char) : Option (Option String) :=
  match l with
  | [] => none
  | c :: rest =>
    if c = 'N' then (if rest.isEmpty then some none else none)
    else if c = 'S' then
      (descanSt false rest).map (fun v => some (String.mk v))
    else if c = '<' then some none
    else none

/-- The toy parser: leading whitespace is tolerated, then the body decoded. -/
def toyParse (s : String) : Option (String → Option String) :=
  match toyDecode (s.data.dropWhile isJsWs) with
  | none => none
  | some st => some (fun k => if k = stageKey then st else none)

/-- An inert selector-query view for the toy documents. -/
def toyCheerioView : CheerioDom :=
  ⟨fun _ => some 0, [], [], []⟩

/-- The concrete library instance over attribute-map documents. -/
def toyLib : DomLib :=
  { Doc := String → Option String
    parse := toyParse
    serialize := fun d =>
      match d stageKey with
      | none => "N"
      | some v => "S" ++ String.mk (escChars v.data) ++ "|"
    hasBody := fun _ => true
    getBodyAttr := fun d k => d k
    setBodyAttr := fun d k v => fun k2 => if k2 = k then some v else d k2
    appendToBody := fun d _ => d
    markResolved := fun d _ => d
    applyLoginEffects := fun d _ => (d, false, false, false)
    markAfterNodes := fun d _ => (d, 0)
    queryView := fun _ => toyCheerioView }

/-! ## Theorems -/

/-- Helper: a nonempty filter-positive head survives `dropWhile`. -/
theorem dropWhile_head_false (p : Char → Bool) :
    ∀ (l : List Char) (a : Char) (t : List Char),
      l.dropWhile p = a :: t → p a = false := by
  intro l
  induction l with
  | nil => intro a t h; simp [List.dropWhile] at h
  | cons c rest ih =>
    intro a t h
    by_cases hc : p c
    · rw [List.dropWhile_cons_of_pos hc] at h; exact ih a t h
    · rw [List.dropWhile_cons_of_neg hc] at h
      cases h; simpa using hc

/-- Helper: two lists with a common prefix and differing next characters
are distinct. -/
theorem ne_append_cons (P : List Char) (x y : Char) (u v : List Char)
    (h : x ≠ y) : P ++ x :: u ≠ P ++ y :: v := by
  intro he
  have := List.append_cancel_left he
  exact h (by injection this)

/-- Helper: `diffArray` of a list against itself is empty. -/
theorem diffArray_self (l : List String) : diffArray l l = ⟨[], []⟩ := by
  unfold diffArray
  have h : l.dedup.filter (fun v => !l.dedup.contains v) = [] := by
    rw [List.filter_eq_nil_iff]
    intro a ha
    have hm : a ∈ l := List.mem_dedup.1 ha
    simp [hm]
  simp [h]

/-- Helper: `diffTagCounts` of a map against itself is empty. -/
theorem diffTagCounts_self (t : List (String × Nat)) :
    diffTagCounts t t = [] := by
  unfold diffTagCounts
  rw [List.filterMap_eq_nil_iff]
  intro a _
  simp

/-- C7: the DOM diff is reflexively empty — for every snapshot that loads,
`diffDom` of it against itself has empty added/removed id and class lists
and no tag-count changes — and whenever either side fails to load
(non-string, empty or malformed HTML, i.e. a `none` load result),
`diffDom` returns `null` instead of throwing. -/
theorem diffDom_refl_empty_and_null_on_parse_failure :
    (∀ d : CheerioDom, diffDom (some d) (some d) = some ⟨⟨[], []⟩, ⟨[], []⟩, []⟩)
    ∧ (∀ a : Option CheerioDom, diffDom none a = none)
    ∧ (∀ b : Option CheerioDom, diffDom b none = none) := by
  refine ⟨fun d => ?_, fun a => rfl, fun b => by cases b <;> rfl⟩
  simp [diffDom, diffArray_self, diffTagCounts_self]

/-- Helper: the three `healTallies` counters sum to the entry count. -/
theorem healTallies_sum (dom : Option CheerioDom) :
    ∀ l : List (String × SelectorEntry),
      (healTallies dom l).1 + (healTallies dom l).2.1
        + (healTallies dom l).2.2 = l.length := by
  intro l
  induction l with
  | nil => rfl
  | cons e rest ih =>
    by_cases hm : (resolveSelectorEntry e.2 dom).matched = true
    · by_cases hh : (resolveSelectorEntry e.2 dom).healed = true
      · simp only [healTallies, hm, hh, if_true, List.length_cons]; omega
      · simp only [healTallies, hm, hh, if_true, if_false, Bool.false_eq_true,
          List.length_cons]
        omega
    · simp only [healTallies, hm, if_false, Bool.false_eq_true, List.length_cons]
      omega

/-- Helper: the tallies count exactly the healed / unresolved /
primary-matched entries. -/
theorem healTallies_counts (dom : Option CheerioDom) :
    ∀ l : List (String × SelectorEntry),
      (healTallies dom l).1 = l.countP (fun e =>
          (resolveSelectorEntry e.2 dom).matched
            && (resolveSelectorEntry e.2 dom).healed)
      ∧ (healTallies dom l).2.1 = l.countP (fun e =>
          !(resolveSelectorEntry e.2 dom).matched)
      ∧ (healTallies dom l).2.2 = l.countP (fun e =>
          (resolveSelectorEntry e.2 dom).matched
            && !(resolveSelectorEntry e.2 dom).healed) := by
  intro l
  induction l with
  | nil => exact ⟨rfl, rfl, rfl⟩
  | cons e rest ih =>
    obtain ⟨ih1, ih2, ih3⟩ := ih
    by_cases hm : (resolveSelectorEntry e.2 dom).matched = true
    · by_cases hh : (resolveSelectorEntry e.2 dom).healed = true
      · refine ⟨?_, ?_, ?_⟩ <;>
          simp [healTallies, List.countP_cons, hm, hh, ih1, ih2, ih3]
      · refine ⟨?_, ?_, ?_⟩ <;>
          simp [healTallies, List.countP_cons, hm, hh, ih1, ih2, ih3]
    · refine ⟨?_, ?_, ?_⟩ <;>
        simp [healTallies, List.countP_cons, hm, ih1, ih2, ih3]

/-- C5: for every selector map and every snapshot, the healing summary of
`runSelectorHealing` satisfies
`total = primaryMatchedCount + healedCount + unresolvedCount`, `total` is
the number of entries in the map, and the three counters count exactly the
matched-healed, unmatched, and matched-unhealed entries respectively, so
each entry contributes to exactly one of the three. -/
theorem runSelectorHealing_total_invariant
    (selectorMap : List (String × SelectorEntry)) (dom : Option CheerioDom) :
    (runSelectorHealing selectorMap dom).total = selectorMap.length
    ∧ (runSelectorHealing selectorMap dom).total =
        (runSelectorHealing selectorMap dom).primaryMatchedCount
          + (runSelectorHealing selectorMap dom).healedCount
          + (runSelectorHealing selectorMap dom).unresolvedCount
    ∧ (runSelectorHealing selectorMap dom).healedCount =
        selectorMap.countP (fun e =>
          (resolveSelectorEntry e.2 dom).matched
            && (resolveSelectorEntry e.2 dom).healed)
    ∧ (runSelectorHealing selectorMap dom).unresolvedCount =
        selectorMap.countP (fun e => !(resolveSelectorEntry e.2 dom).matched)
    ∧ (runSelectorHealing selectorMap dom).primaryMatchedCount =
        selectorMap.countP (fun e =>
          (resolveSelectorEntry e.2 dom).matched
            && !(resolveSelectorEntry e.2 dom).healed) := by
  obtain ⟨h1, h2, h3⟩ := healTallies_counts dom selectorMap
  have hs := healTallies_sum dom selectorMap
  refine ⟨rfl, ?_, h1, h2, h3⟩
  show selectorMap.length = (healTallies dom selectorMap).2.2
      + (healTallies dom selectorMap).1 + (healTallies dom selectorMap).2.1
  omega

/-- Helper: an empty selector never matches. -/
theorem selectorExists_empty_false (d : CheerioDom) (c : String)
    (hc : c.isEmpty = true) : selectorExists d c = false := by
  have : c = "" := (String.isEmpty_iff c).1 hc
  subst this
  have h : normalizeSelectorForDom "" = none := by decide
  simp [selectorExists, h]

/-- Helper: `find?` is unchanged by a filter that keeps every hit. -/
theorem find_filter_of_imp (p q : String → Bool)
    (hpq : ∀ c, p c = true → q c = true) :
    ∀ (l : List String) (f : String),
      l.find? p = some f → (l.filter q).find? p = some f := by
  intro l
  induction l with
  | nil => intro f h; simp at h
  | cons c rest ih =>
    intro f h
    by_cases hp : p c = true
    · rw [List.find?_cons_of_pos _ hp] at h
      rw [List.filter_cons_of_pos (hpq c hp), List.find?_cons_of_pos _ hp]
      exact h
    · rw [List.find?_cons_of_neg _ (by simpa using hp)] at h
      by_cases hq : q c = true
      · rw [List.filter_cons_of_pos hq,
          List.find?_cons_of_neg _ (by simpa using hp)]
        exact ih f h
      · rw [List.filter_cons_of_neg (by simpa using hq)]
        exact ih f h

/-- Helper: the first matching candidate determines the resolution. -/
theorem resolveCandidates_find (d : CheerioDom) (primary : Option String) :
    ∀ (l : List String) (f : String),
      l.find? (fun c => selectorExists d c) = some f →
        (resolveCandidates d primary l).usedSelector = some f
        ∧ (resolveCandidates d primary l).matched = true
        ∧ (resolveCandidates d primary l).healed = (some f != primary) := by
  intro l
  induction l with
  | nil => intro f h; simp at h
  | cons c rest ih =>
    intro f h
    by_cases hc : selectorExists d c = true
    · rw [List.find?_cons_of_pos _ (by simpa using hc)] at h
      cases h
      simp [resolveCandidates, hc]
    · rw [List.find?_cons_of_neg _ (by simpa using hc)] at h
      have := ih f h
      simpa [resolveCandidates, hc] using this

/-- Helper: `healed = matched && usedSelector != primary` for the candidate
loop, unconditionally. -/
theorem resolveCandidates_healed_eq (d : CheerioDom) (primary : Option String) :
    ∀ l : List String,
      (resolveCandidates d primary l).healed =
        ((resolveCandidates d primary l).matched
          && ((resolveCandidates d primary l).usedSelector != primary)) := by
  intro l
  induction l with
  | nil => rfl
  | cons c rest ih =>
    by_cases hc : selectorExists d c = true
    · simp [resolveCandidates, hc]
    · simpa [resolveCandidates, hc] using ih

/-- Helper: a present `jsPrimary` is a nonempty string. -/
theorem jsPrimary_nonempty (entry : SelectorEntry) (p : String)
    (h : jsPrimary entry = some p) : p.isEmpty = false := by
  unfold jsPrimary at h
  cases hp : entry.primary with
  | none => rw [hp] at h; simp at h
  | some q =>
    rw [hp] at h
    by_cases hq : q.isEmpty = true
    · simp [hq] at h
    · simp [hq] at h
      subst h
      simpa using hq

/-- C6: for every selector entry and every parseable snapshot: a matching
primary resolves unhealed to the primary; a non-matching primary with some
matching fallback resolves healed to the first matching fallback in
declared order; and in all cases
`healed = matched && usedSelector != primary`. -/
theorem resolveSelectorEntry_healing_spec (entry : SelectorEntry)
    (d : CheerioDom) :
    (∀ p, jsPrimary entry = some p → selectorExists d p = true →
      (resolveSelectorEntry entry (some d)).usedSelector = some p
      ∧ (resolveSelectorEntry entry (some d)).healed = false)
    ∧ (∀ p f, jsPrimary entry = some p → selectorExists d p = false →
        entry.fallbacks.find? (fun c => selectorExists d c) = some f →
          (resolveSelectorEntry entry (some d)).healed = true
          ∧ (resolveSelectorEntry entry (some d)).usedSelector = some f)
    ∧ ((resolveSelectorEntry entry (some d)).healed =
        ((resolveSelectorEntry entry (some d)).matched
          && ((resolveSelectorEntry entry (some d)).usedSelector
                != jsPrimary entry))) := by
  refine ⟨?_, ?_, ?_⟩
  · intro p hp hmatch
    have hne : p.isEmpty = false := jsPrimary_nonempty entry p hp
    unfold resolveSelectorEntry
    rw [hp]
    simp only [Option.toList_some, List.cons_append, List.nil_append]
    rw [List.filter_cons_of_pos (by simp [hne])]
    constructor <;> simp [resolveCandidates, hmatch]
  · intro p f hp hmiss hfind
    have hne : p.isEmpty = false := jsPrimary_nonempty entry p hp
    have hfind2 : (entry.fallbacks.filter (fun c => !c.isEmpty)).find?
        (fun c => selectorExists d c) = some f := by
      refine find_filter_of_imp _ _ ?_ entry.fallbacks f hfind
      intro c hc
      by_cases hce : c.isEmpty = true
      · rw [selectorExists_empty_false d c hce] at hc; exact absurd hc (by simp)
      · simpa using hce
    have hmem := List.find?_some hfind
    have hfp : f ≠ p := by
      intro hfp
      rw [hfp] at hmem
      rw [hmiss] at hmem
      exact absurd hmem (by simp)
    unfold resolveSelectorEntry
    rw [hp]
    simp only [Option.toList_some, List.cons_append, List.nil_append]
    rw [List.filter_cons_of_pos (by simp [hne])]
    have hres := resolveCandidates_find d (some p) _ f hfind2
    simp only [resolveCandidates, hmiss]
    refine ⟨?_, ?_⟩
    · rw [hres.2.2]
      simp [hfp]
    · exact hres.1
  · unfold resolveSelectorEntry
    exact resolveCandidates_healed_eq d (jsPrimary entry) _

/-- C2 counterexample: for a malformed URL (hostname extraction fails) and
an empty allow-list, `isUrlAllowed` returns `true` — the empty-allow-list
rule short-circuits before the URL is parsed, so "for every malformed URL
it returns false" fails as stated. -/
theorem isUrlAllowed_malformed_empty_allowlist_counterexample :
    parseHostname "not-a-url" = none ∧ isUrlAllowed "not-a-url" [] = true :=
  ⟨by decide, rfl⟩

/-- C2 amended: if the allow-list is empty `isUrlAllowed` returns true (even
for a malformed URL); otherwise it returns true iff the URL's hostname,
after stripping a leading `www.` and lowercasing, exactly equals some entry
or ends with `.` followed by some entry; and a malformed URL yields false
whenever the allow-list is nonempty. -/
theorem isUrlAllowed_characterization (url : String) (allow : List String) :
    (allow = [] → isUrlAllowed url allow = true)
    ∧ (∀ hn, allow ≠ [] → parseHostname url = some hn →
        (isUrlAllowed url allow = true ↔
          ∃ d ∈ allow, strToLower (stripWww hn) = d
            ∨ strEndsWith (strToLower (stripWww hn)) ("." ++ d) = true))
    ∧ (allow ≠ [] → parseHostname url = none →
        isUrlAllowed url allow = false) := by
  have hempty : ∀ h : allow ≠ [], allow.isEmpty = false := by
    intro h
    cases allow with
    | nil => exact absurd rfl h
    | cons a l => rfl
  refine ⟨?_, ?_, ?_⟩
  · intro h; subst h; rfl
  · intro hn hne hp
    simp only [isUrlAllowed, hempty hne, Bool.false_eq_true, if_false, hp]
    simp [List.any_eq_true, beq_iff_eq]
  · intro hne hp
    simp only [isUrlAllowed, hempty hne, Bool.false_eq_true, if_false, hp]

/-- Witness for `isUrlAllowed_characterization` at the spec's own examples:
a subdomain of an allowed domain is allowed, and a malformed URL with a
nonempty allow-list is rejected. -/
theorem isUrlAllowed_characterization_witness :
    isUrlAllowed "https://shop.example.com/x" [] = true
    ∧ (isUrlAllowed "https://shop.example.com/x" ["example.com"] = true ↔
        ∃ d ∈ ["example.com"], strToLower (stripWww "shop.example.com") = d
          ∨ strEndsWith (strToLower (stripWww "shop.example.com"))
              ("." ++ d) = true)
    ∧ isUrlAllowed "not-a-url" ["example.com"] = false :=
  ⟨(isUrlAllowed_characterization "https://shop.example.com/x" []).1 rfl,
    (isUrlAllowed_characterization "https://shop.example.com/x"
      ["example.com"]).2.1 "shop.example.com" (by decide) (by decide),
    (isUrlAllowed_characterization "not-a-url" ["example.com"]).2.2
      (by decide) (by decide)⟩

/-- C9 counterexample: for the recorded selector `#login` the derived
id-based candidate equals the recorded selector itself, so the built
entry's `fallbacks` list contains an element equal to `primary`. -/
theorem mapSelectors_fallback_equals_primary_counterexample :
    mapSelectors [some "#login"] =
      [("#login", ⟨"#login", some "#login", ["#login"]⟩)] := by decide

/-- C9 amended: every entry built by `mapSelectors` keys the recorded
selector, keeps it as `primary` and `exactSelector`, and its `fallbacks`
are deduplicated id-based or name-based derived candidates; distinctness
from `primary` is, however, not guaranteed (the counterexample shows a
fallback equal to the primary when the recorded selector is itself the
derived id selector). -/
theorem mapSelectors_entry_shape (events : List (Option String)) :
    ∀ k e, (k, e) ∈ mapSelectors events →
      e.primary = some k ∧ e.exactSelector = k ∧ e.fallbacks.Nodup
      ∧ ∀ f ∈ e.fallbacks,
          (∃ id, f = "#" ++ id) ∨ (∃ nm, f = "[name=\"" ++ nm ++ "\"]") := by
  intro k e hmem
  unfold mapSelectors at hmem
  rw [List.mem_filterMap] at hmem
  obtain ⟨sel?, _, hsel⟩ := hmem
  cases sel? with
  | none => simp at hsel
  | some s =>
    by_cases hs : s.isEmpty = true
    · simp [hs] at hsel
    · simp only [hs, Bool.false_eq_true, if_false, Option.some.injEq,
        Prod.mk.injEq] at hsel
      obtain ⟨hks, hke⟩ := hsel
      subst hks
      subst hke
      refine ⟨rfl, rfl, List.nodup_dedup _, ?_⟩
      intro f hf
      have hf2 : f ∈ (([s] ++
          (match extractIdCapture s.data with
            | some id => ["#" ++ id]
            | none => [])
          ++ (match extractNameCapture s.data with
            | some nm => ["[name=\"" ++ nm ++ "\"]"]
            | none => [])).drop 1) := List.mem_dedup.1 hf
      cases hid : extractIdCapture s.data with
      | none =>
        cases hnm : extractNameCapture s.data with
        | none => simp [hid, hnm] at hf2
        | some nm =>
          simp [hid, hnm] at hf2
          exact Or.inr ⟨nm, hf2⟩
      | some id =>
        cases hnm : extractNameCapture s.data with
        | none =>
          simp [hid, hnm] at hf2
          exact Or.inl ⟨id, hf2⟩
        | some nm =>
          simp [hid, hnm] at hf2
          rcases hf2 with h1 | h1
          · exact Or.inl ⟨id, h1⟩
          · exact Or.inr ⟨nm, h1⟩

/-- Witness for `mapSelectors_entry_shape` at a concrete recorded event. -/
theorem mapSelectors_entry_shape_witness :
    (selectorEntryFor "#q").primary = some "#q"
    ∧ (selectorEntryFor "#q").exactSelector = "#q"
    ∧ (selectorEntryFor "#q").fallbacks.Nodup
    ∧ ∀ f ∈ (selectorEntryFor "#q").fallbacks,
        (∃ id, f = "#" ++ id) ∨ (∃ nm, f = "[name=\"" ++ nm ++ "\"]") :=
  mapSelectors_entry_shape [some "#q"] "#q" (selectorEntryFor "#q") (by decide)

set_option maxRecDepth 8192 in
/-- C10 counterexample: workflow validation does not reject a wait step
whose `value` is missing or non-numeric — `rpaStepSchemaCheck` accepts
both — and execution falls back to a 2000 ms delay for them.  Moreover the
clamp clause fails even for numeric values: the 321-digit numeral
`1` followed by 320 zeros (admitted by the 4000-char schema bound)
overflows JS `parseInt` to `Infinity`, so the program delays 2000 ms where
the claimed clamp `min (max v 200) 30000` would be 30000 ms. -/
theorem waitStep_missing_value_accepted_counterexample :
    rpaStepSchemaCheck ⟨"wait", none, none, none⟩ = true
    ∧ rpaStepSchemaCheck ⟨"wait", none, some "soon", none⟩ = true
    ∧ waitDelayMs none = 2000 ∧ waitDelayMs (some "soon") = 2000
    ∧ rpaStepSchemaCheck
        ⟨"wait", none, some (String.mk ('1' :: List.replicate 320 '0')),
          none⟩ = true
    ∧ jsParseInt (String.mk ('1' :: List.replicate 320 '0'))
        = JsNumber.posInf
    ∧ waitDelayMs (some (String.mk ('1' :: List.replicate 320 '0'))) = 2000
    ∧ (min (max (digitsToInt ('1' :: List.replicate 320 '0')) 200)
        30000).toNat = 30000 := by
  decide

set_option maxRecDepth 8192 in
/-- C10 amended: the schema imposes no wait-specific requirement on `value`
(a wait step passes validation exactly under the generic optional length
bound); at execution a missing value, a non-numeric value, or a numeral
overflowing the double range (`Number.isFinite` false: `NaN` or an
infinity) defaults to 2000 ms, and a value parsing to the finite number
`n` delays `min (max n 200) 30000` ms. -/
theorem waitStep_validation_and_clamp :
    (∀ v, rpaStepSchemaCheck ⟨"wait", none, v, none⟩ =
        (match v with
         | none => true
         | some s => decide ((jsTrim s).length ≤ 4000)))
    ∧ waitDelayMs none = 2000
    ∧ (∀ s, (jsParseInt s = JsNumber.nan ∨ jsParseInt s = JsNumber.posInf
        ∨ jsParseInt s = JsNumber.negInf) → waitDelayMs (some s) = 2000)
    ∧ (∀ s n, jsParseInt s = JsNumber.finite n →
        waitDelayMs (some s) = (min (max n 200) 30000).toNat) := by
  refine ⟨?_, rfl, ?_, ?_⟩
  · intro v
    cases v with
    | none => rfl
    | some s => simp [rpaStepSchemaCheck]
  · intro s h
    by_cases hs : s.isEmpty = true
    · have : s = "" := (String.isEmpty_iff s).1 hs
      subst this
      decide
    · rcases h with h | h | h <;> simp [waitDelayMs, hs, h]
  · intro s n h
    have hs : s.isEmpty = false := by
      by_contra hc
      have : s = "" := (String.isEmpty_iff s).1 (by simpa using hc)
      subst this
      have he : jsParseInt "" = JsNumber.nan := by decide
      rw [he] at h
      exact absurd h (by simp)
    simp [waitDelayMs, hs, h]

set_option maxRecDepth 8192 in
/-- Witness for `waitStep_validation_and_clamp`: non-numeric and
overflowing-numeral defaulting, and clamping at both ends. -/
theorem waitStep_validation_and_clamp_witness :
    waitDelayMs (some "abc") = 2000
    ∧ waitDelayMs (some (String.mk ('1' :: List.replicate 320 '0'))) = 2000
    ∧ waitDelayMs (some "70000") = 30000
    ∧ waitDelayMs (some "50") = 200 := by
  refine ⟨waitStep_validation_and_clamp.2.2.1 "abc" (Or.inl (by decide)),
    waitStep_validation_and_clamp.2.2.1
      (String.mk ('1' :: List.replicate 320 '0'))
      (Or.inr (Or.inl (by decide))), ?_, ?_⟩
  · have := waitStep_validation_and_clamp.2.2.2 "70000" 70000 (by decide)
    simpa using this
  · have := waitStep_validation_and_clamp.2.2.2 "50" 50 (by decide)
    simpa using this

/-- Witness for `resolveSelectorEntry_healing_spec`: a snapshot where the
primary matches (unhealed resolution) and one where only a fallback matches
(healed resolution to the first matching fallback). -/
theorem resolveSelectorEntry_healing_spec_witness :
    ((resolveSelectorEntry ⟨"#a", some "#a", ["#z"]⟩
        (some ⟨fun sel => some (if sel == "#a" then 1 else 0), [], [], []⟩)).usedSelector
          = some "#a"
      ∧ (resolveSelectorEntry ⟨"#a", some "#a", ["#z"]⟩
          (some ⟨fun sel => some (if sel == "#a" then 1 else 0), [], [], []⟩)).healed
          = false)
    ∧ ((resolveSelectorEntry ⟨"#b", some "#b", ["#c"]⟩
          (some ⟨fun sel => some (if sel == "#c" then 1 else 0), [], [], []⟩)).healed
          = true
      ∧ (resolveSelectorEntry ⟨"#b", some "#b", ["#c"]⟩
          (some ⟨fun sel => some (if sel == "#c" then 1 else 0), [], [], []⟩)).usedSelector
          = some "#c") :=
  ⟨(resolveSelectorEntry_healing_spec ⟨"#a", some "#a", ["#z"]⟩
      ⟨fun sel => some (if sel == "#a" then 1 else 0), [], [], []⟩).1 "#a"
      (by decide) (by decide),
    (resolveSelectorEntry_healing_spec ⟨"#b", some "#b", ["#c"]⟩
      ⟨fun sel => some (if sel == "#c" then 1 else 0), [], [], []⟩).2.1 "#b" "#c"
      (by decide) (by decide) (by decide)⟩

/-- Helper: the retry loop executes at most `fuel` attempts. -/
theorem stepLoopGo_attempts_le (o : Nat → StepAttemptResult)
    (stepIdx total : Nat) (act : String) :
    ∀ fuel attemptNo : Nat,
      executedAttempts (stepLoopGo o stepIdx total act attemptNo fuel) ≤ fuel := by
  intro fuel
  induction fuel with
  | zero => intro a; simp [stepLoopGo, executedAttempts]
  | succ n ih =>
    intro a
    cases ho : o a with
    | success =>
      simp [stepLoopGo, ho, executedAttempts, mkExecutingLog,
        mkStepCompletedLog, List.countP_cons]
    | failure kind =>
      by_cases hn : n = 0
      · subst hn
        simp [stepLoopGo, ho, executedAttempts, mkExecutingLog,
          mkStepFailedLog, List.countP_cons]
      · have := ih (a + 1)
        simp only [stepLoopGo, ho, hn, if_false] at *
        simp only [executedAttempts, List.countP_cons] at *
        simp [mkExecutingLog, mkStepFailedLog]
        omega

/-- Helper: the i-th backoff wait of the retry loop starting at attempt
`attemptNo` is `400 * (attemptNo + i)`. -/
theorem stepLoopGo_waits (o : Nat → StepAttemptResult)
    (stepIdx total : Nat) (act : String) :
    ∀ (fuel attemptNo i w : Nat),
      (stepLoopGo o stepIdx total act attemptNo fuel).waits.get? i = some w →
      w = 400 * (attemptNo + i) := by
  intro fuel
  induction fuel with
  | zero => intro a i w h; simp [stepLoopGo] at h
  | succ n ih =>
    intro a i w h
    cases ho : o a with
    | success => simp [stepLoopGo, ho] at h
    | failure kind =>
      by_cases hn : n = 0
      · subst hn; simp [stepLoopGo, ho] at h
      · simp only [stepLoopGo, ho, hn, if_false] at h
        cases i with
        | zero =>
          simp at h
          omega
        | succ j =>
          simp only [List.get?_cons_succ] at h
          have := ih (a + 1) j w h
          omega

/-- Helper: the loop propagates an error exactly when no admitted attempt
succeeds. -/
theorem stepLoopGo_error_none_iff (o : Nat → StepAttemptResult)
    (stepIdx total : Nat) (act : String) :
    ∀ fuel attemptNo : Nat, 1 ≤ fuel →
      ((stepLoopGo o stepIdx total act attemptNo fuel).error = none ↔
        ∃ j, j < fuel ∧ isSuccessAttempt (o (attemptNo + j)) = true) := by
  intro fuel
  induction fuel with
  | zero => intro a h; omega
  | succ n ih =>
    intro a _
    cases ho : o a with
    | success =>
      refine ⟨fun _ => ⟨0, by omega, ?_⟩, fun _ => ?_⟩
      · rw [Nat.add_zero, ho]; rfl
      · simp [stepLoopGo, ho]
    | failure kind =>
      by_cases hn : n = 0
      · subst hn
        constructor
        · intro hcontra
          simp [stepLoopGo, ho] at hcontra
        · rintro ⟨j, hj, hs⟩
          have hj0 : j = 0 := by omega
          subst hj0
          rw [Nat.add_zero, ho] at hs
          simp [isSuccessAttempt] at hs
      · simp only [stepLoopGo, ho, hn, if_false]
        rw [ih (a + 1) (by omega)]
        constructor
        · rintro ⟨j, hj, hs⟩
          exact ⟨j + 1, by omega, by
            have : a + (j + 1) = a + 1 + j := by omega
            rw [this]; exact hs⟩
        · rintro ⟨j, hj, hs⟩
          cases j with
          | zero =>
            rw [Nat.add_zero] at hs
            rw [ho] at hs
            simp [isSuccessAttempt] at hs
          | succ j2 =>
            exact ⟨j2, by omega, by
              have : a + 1 + j2 = a + (j2 + 1) := by omega
              rw [this]; exact hs⟩

/-- Helper: the step trace depends only on which attempts succeed, not on
the kinds of the failures. -/
theorem stepLoopGo_kind_independent (o1 o2 : Nat → StepAttemptResult)
    (h : ∀ a, isSuccessAttempt (o1 a) = isSuccessAttempt (o2 a))
    (stepIdx total : Nat) (act : String) :
    ∀ fuel attemptNo : Nat,
      (stepLoopGo o1 stepIdx total act attemptNo fuel).logs
          = (stepLoopGo o2 stepIdx total act attemptNo fuel).logs
      ∧ (stepLoopGo o1 stepIdx total act attemptNo fuel).waits
          = (stepLoopGo o2 stepIdx total act attemptNo fuel).waits
      ∧ (stepLoopGo o1 stepIdx total act attemptNo fuel).error.isSome
          = (stepLoopGo o2 stepIdx total act attemptNo fuel).error.isSome := by
  intro fuel
  induction fuel with
  | zero => intro a; exact ⟨rfl, rfl, rfl⟩
  | succ n ih =>
    intro a
    have ha := h a
    cases ho1 : o1 a with
    | success =>
      cases ho2 : o2 a with
      | success => simp [stepLoopGo, ho1, ho2]
      | failure k2 =>
        rw [ho1, ho2] at ha
        simp [isSuccessAttempt] at ha
    | failure k1 =>
      cases ho2 : o2 a with
      | success =>
        rw [ho1, ho2] at ha
        simp [isSuccessAttempt] at ha
      | failure k2 =>
        by_cases hn : n = 0
        · subst hn; simp [stepLoopGo, ho1, ho2]
        · have := ih (a + 1)
          simp only [stepLoopGo, ho1, ho2, hn, if_false]
          exact ⟨by rw [this.1], by rw [this.2.1], this.2.2⟩

/-- C1 counterexample: a step whose first attempt fails with the
domain-blocked error is retried by the loop (`willRetry = true` is logged, a
second attempt executes) and the run continues instead of failing —
refuting "domain-blocked errors are never retried". -/
theorem domainBlocked_failure_is_retried_counterexample :
    (stepLoop (fun a => if a = 1 then .failure .domainBlocked else .success)
        1 0 1 "goto").error = none
    ∧ executedAttempts (stepLoop
        (fun a => if a = 1 then .failure .domainBlocked else .success)
        1 0 1 "goto") = 2
    ∧ (stepLoop (fun a => if a = 1 then .failure .domainBlocked else .success)
        1 0 1 "goto").logs =
        [mkExecutingLog 0 1 1 "goto", mkStepFailedLog 0 "goto" 1 true,
          mkExecutingLog 0 1 2 "goto", mkStepCompletedLog 0 "goto"] := by
  decide

/-- C1 amended: the per-step retry loop treats every failure kind uniformly
— a domain-blocked failure is retried exactly like element-not-found and
action-timeout failures.  The step trace (logs, backoff waits, whether an
error is propagated) depends only on which attempts succeed, never on the
failure kinds, and the final attempt's error is propagated — failing the
run — exactly when none of the `stepRetries + 1` admitted attempts
succeeds. -/
theorem stepLoop_retry_independent_of_error_kind
    (o1 o2 : Nat → StepAttemptResult) (retries stepIdx total : Nat)
    (act : String)
    (h : ∀ a, isSuccessAttempt (o1 a) = isSuccessAttempt (o2 a)) :
    (stepLoop o1 retries stepIdx total act).logs
        = (stepLoop o2 retries stepIdx total act).logs
    ∧ (stepLoop o1 retries stepIdx total act).waits
        = (stepLoop o2 retries stepIdx total act).waits
    ∧ (stepLoop o1 retries stepIdx total act).error.isSome
        = (stepLoop o2 retries stepIdx total act).error.isSome
    ∧ ((stepLoop o1 retries stepIdx total act).error = none ↔
        ∃ j, j < retries + 1 ∧ isSuccessAttempt (o1 (1 + j)) = true) := by
  have hk := stepLoopGo_kind_independent o1 o2 h stepIdx total act (retries + 1) 1
  refine ⟨hk.1, hk.2.1, hk.2.2, ?_⟩
  exact stepLoopGo_error_none_iff o1 stepIdx total act (retries + 1) 1 (by omega)

/-- Witness for `stepLoop_retry_independent_of_error_kind`: a
domain-blocked-then-success oracle against an element-not-found-then-success
oracle with one retry. -/
theorem stepLoop_retry_independent_witness :
    (stepLoop (fun a => if a = 1 then .failure .domainBlocked else .success)
        1 0 1 "goto").logs
      = (stepLoop (fun a => if a = 1 then .failure .elementNotFound else .success)
          1 0 1 "goto").logs
    ∧ (stepLoop (fun a => if a = 1 then .failure .domainBlocked else .success)
        1 0 1 "goto").waits
      = (stepLoop (fun a => if a = 1 then .failure .elementNotFound else .success)
          1 0 1 "goto").waits
    ∧ (stepLoop (fun a => if a = 1 then .failure .domainBlocked else .success)
        1 0 1 "goto").error.isSome
      = (stepLoop (fun a => if a = 1 then .failure .elementNotFound else .success)
          1 0 1 "goto").error.isSome
    ∧ ((stepLoop (fun a => if a = 1 then .failure .domainBlocked else .success)
        1 0 1 "goto").error = none ↔
        ∃ j, j < 1 + 1 ∧ isSuccessAttempt
          ((fun a => if a = 1 then .failure .domainBlocked else .success)
            (1 + j)) = true) :=
  stepLoop_retry_independent_of_error_kind
    (fun a => if a = 1 then .failure .domainBlocked else .success)
    (fun a => if a = 1 then .failure .elementNotFound else .success)
    1 0 1 "goto"
    (fun a => by by_cases ha : a = 1 <;> simp [ha, isSuccessAttempt])

/-- C3: with `stepRetries ≤ 3` (the schema's bound), a step is attempted at
most `stepRetries + 1` times; the k-th backoff wait (after the k-th failed
attempt, which exists only while k ≤ stepRetries) is `400 * k`
milliseconds; and a single-step workflow whose step fails on attempt 1 and
succeeds on attempt 2 with `stepRetries = 1` produces exactly one
step-failed warning log and an overall `completed` status. -/
theorem executeWorkflow_retry_budget_and_backoff
    (o : Nat → StepAttemptResult) (retries stepIdx total : Nat)
    (act : String) (hr : retries ≤ 3) :
    executedAttempts (stepLoop o retries stepIdx total act) ≤ retries + 1
    ∧ (∀ i w, (stepLoop o retries stepIdx total act).waits.get? i = some w →
        w = 400 * (i + 1))
    ∧ (∀ (oc : Nat → Nat → StepAttemptResult) (kind : StepErrorKind)
        (maxMs : Nat) (launched closeFails : Bool) (act2 : String),
        oc 0 1 = .failure kind → oc 0 2 = .success →
        (executeWorkflow oc [act2] 1 maxMs false launched closeFails).1.status
            = "completed"
        ∧ (executeWorkflow oc [act2] 1 maxMs false
            launched closeFails).1.logs.countP (fun e => e.level == "warn")
            = 1) := by
  refine ⟨stepLoopGo_attempts_le o stepIdx total act (retries + 1) 1, ?_, ?_⟩
  · intro i w h
    have := stepLoopGo_waits o stepIdx total act (retries + 1) 1 i w h
    omega
  · intro oc kind maxMs launched closeFails act2 h1 h2
    have htrace : stepLoopGo (oc 0) 0 1 act2 1 2 =
        ⟨[mkExecutingLog 0 1 1 act2, mkStepFailedLog 0 act2 1 true,
            mkExecutingLog 0 1 2 act2, mkStepCompletedLog 0 act2],
          [400 * 1], none⟩ := by
      simp [stepLoopGo, h1, h2]
    constructor
    · simp [executeWorkflow, runSteps, runStepsGo, stepLoop, htrace]
    · simp [executeWorkflow, runSteps, runStepsGo, stepLoop, htrace,
        startingLog, runCompletedLog, mkExecutingLog, mkStepFailedLog,
        mkStepCompletedLog, List.countP_cons]

/-- C4: the run races against the single `maxExecutionMs` deadline — when
the deadline fires first the returned record has status `failed` and
carries the timeout-classified error message `timeoutMessage maxExecutionMs`
— and in every outcome the browser session is released whenever one was
launched, with a failure of `close()` itself never altering the returned
record. -/
theorem executeWorkflow_timeout_race_and_cleanup
    (oc : Nat → Nat → StepAttemptResult) (actions : List String)
    (retries maxMs : Nat) (launched closeFails : Bool) :
    (executeWorkflow oc actions retries maxMs true launched closeFails).1.status
        = "failed"
    ∧ (executeWorkflow oc actions retries maxMs true launched closeFails).1.error
        = some (timeoutMessage maxMs)
    ∧ (∀ deadline : Bool,
        (executeWorkflow oc actions retries maxMs deadline launched
          closeFails).2.1 = launched)
    ∧ (∀ deadline c1 c2 : Bool,
        (executeWorkflow oc actions retries maxMs deadline launched c1).1
          = (executeWorkflow oc actions retries maxMs deadline launched c2).1) := by
  refine ⟨by simp [executeWorkflow], by simp [executeWorkflow], ?_, ?_⟩
  · intro deadline
    rfl
  · intro deadline c1 c2
    rfl

/-- Witness for `executeWorkflow_retry_budget_and_backoff`: an
always-failing oracle with one retry, and a concrete fail-then-succeed
single-step workflow. -/
theorem executeWorkflow_retry_budget_witness :
    executedAttempts (stepLoop (fun _ => .failure .actionTimeout) 1 0 1
        "click") ≤ 1 + 1
    ∧ (∀ i w, (stepLoop (fun _ => .failure .actionTimeout) 1 0 1
        "click").waits.get? i = some w → w = 400 * (i + 1))
    ∧ ((executeWorkflow
          (fun _ a => if a = 1 then .failure .actionTimeout else .success)
          ["click"] 1 5000 false true false).1.status = "completed"
      ∧ (executeWorkflow
          (fun _ a => if a = 1 then .failure .actionTimeout else .success)
          ["click"] 1 5000 false true false).1.logs.countP
            (fun e => e.level == "warn") = 1) := by
  have h := executeWorkflow_retry_budget_and_backoff
    (fun _ => .failure .actionTimeout) 1 0 1 "click" (by omega)
  exact ⟨h.1, h.2.1,
    h.2.2 (fun _ a => if a = 1 then .failure .actionTimeout else .success)
      .actionTimeout 5000 true false "click" (by decide) (by decide)⟩

/-- Helper: `String.data` is injective. -/
theorem string_data_inj (s t : String) (h : s.data = t.data) : s = t := by
  cases s; cases t; exact congrArg String.mk h

/-- Helper: `String.mk` of the character list of a string gives it back. -/
theorem stringMk_data (s : String) : String.mk s.data = s := by
  cases s; rfl

/-- Helper: `jsTrim` is empty exactly when its character form is. -/
theorem jsTrim_eq_empty_iff (s : String) :
    jsTrim s = "" ↔ jsTrimChars s.data = [] := by
  constructor
  · intro h
    have := congrArg String.data h
    simpa [jsTrim] using this
  · intro h
    simp [jsTrim, h]

/-- Helper: leading-whitespace removal decomposes as the trimmed characters
followed by trailing whitespace. -/
theorem trim_decomp (s : String) :
    ∃ w, s.data.dropWhile isJsWs = (jsTrim s).data ++ w
      ∧ ∀ c ∈ w, isJsWs c = true := by
  refine ⟨((s.data.dropWhile isJsWs).reverse.takeWhile isJsWs).reverse,
    ?_, ?_⟩
  · have h1 : (jsTrim s).data =
        ((s.data.dropWhile isJsWs).reverse.dropWhile isJsWs).reverse := rfl
    rw [h1, ← List.reverse_append,
      List.takeWhile_append_dropWhile isJsWs
        (s.data.dropWhile isJsWs).reverse,
      List.reverse_reverse]
  · intro c hc
    rw [List.mem_reverse] at hc
    exact List.mem_takeWhile_imp hc

/-- Helper: a nonempty trimmed string starts with a non-whitespace
character. -/
theorem trim_head_not_ws (s : String) (c : Char) (t : List Char)
    (h : (jsTrim s).data = c :: t) : isJsWs c = false := by
  obtain ⟨w, hw, _⟩ := trim_decomp s
  rw [h] at hw
  exact dropWhile_head_false isJsWs s.data c (t ++ w) (by simpa using hw)

/-- Helper: a string starting with a non-whitespace character trims to a
nonempty string. -/
theorem trim_ne_empty_of_head (s : String) (c : Char) (rest : List Char)
    (hd : s.data = c :: rest) (hc : isJsWs c = false) : jsTrim s ≠ "" := by
  intro hemp
  have hnil : jsTrimChars s.data = [] := (jsTrim_eq_empty_iff s).1 hemp
  unfold jsTrimChars at hnil
  rw [hd, List.dropWhile_cons_of_neg (by simp [hc])] at hnil
  have h2 : ((c :: rest).reverse.dropWhile isJsWs) = [] := by
    simpa using congrArg List.reverse hnil
  rw [List.dropWhile_eq_nil_iff] at h2
  have : isJsWs c = true := h2 c (by simp)
  rw [hc] at this
  exact absurd this (by simp)

/-- Helper: strings with different stage observations are distinct. -/
theorem obs_distinguishes (lib : DomLib) (s1 s2 : String)
    (h : obsStage lib s1 ≠ obsStage lib s2) : s1 ≠ s2 :=
  fun he => h (by rw [he])

/-- Helper: stamping a loadable body-ful snapshot re-serializes it with the
stage attribute set, so the stamped output's stage observation is the
stage itself. -/
theorem stamp_obs_loads (lib : DomLib) (hspec : DomLibSpec lib)
    (html stage runId : String) (ts : Nat) (a : Option String)
    (hstage : stage.isEmpty = false)
    (h : obsStage lib html = some a) :
    obsStage lib (stampDomSnapshot lib html stage runId ts)
      = some (some stage) := by
  unfold obsStage at h
  cases hload : safeCheerioLoad lib html with
  | none => simp [hload] at h
  | some d =>
    cases hb : lib.hasBody d with
    | false => simp [hload, hb] at h
    | true =>
      have hout : stampDomSnapshot lib html stage runId ts
          = lib.serialize (lib.setBodyAttr (lib.setBodyAttr
              (lib.setBodyAttr d stageKey stage)
              runIdKey (if runId.isEmpty then toString ts else runId))
              stampedAtKey (toString ts)) := by
        simp [stampDomSnapshot, hload, hb, hstage]
      rw [hout, hspec.roundtrip, hspec.setGet, hspec.setGet, hspec.setGet]
      have k1 : ¬ stageKey = stampedAtKey := by decide
      have k2 : ¬ stageKey = runIdKey := by decide
      rw [if_neg k1, if_neg k2, if_pos rfl]

/-- Helper: stamping a snapshot that does not load with a body appends the
stage comment to its trimmed form. -/
theorem stamp_comment_eq (lib : DomLib) (html stage runId : String)
    (ts : Nat) (hstage : stage.isEmpty = false) (ht : ¬ jsTrim html = "")
    (h : obsStage lib html = none) :
    stampDomSnapshot lib html stage runId ts
      = jsTrim html ++ mkStampComment stage
          (if runId.isEmpty then toString ts else runId) ts := by
  unfold obsStage at h
  cases hload : safeCheerioLoad lib html with
  | none => simp [stampDomSnapshot, hload, hstage, ht]
  | some d =>
    rw [hload] at h
    cases hb : lib.hasBody d with
    | true => simp [hb] at h
    | false => simp [stampDomSnapshot, hload, hb, hstage, ht]

/-- Helper: the comment-stamped output of an unloadable snapshot still does
not load with a body. -/
theorem stamp_obs_none (lib : DomLib) (hspec : DomLibSpec lib)
    (html stage runId : String) (ts : Nat)
    (hstage : stage.isEmpty = false) (ht : ¬ jsTrim html = "")
    (h : obsStage lib html = none) :
    obsStage lib (stampDomSnapshot lib html stage runId ts) = none := by
  rw [stamp_comment_eq lib html stage runId ts hstage ht h]
  exact hspec.commentAppend html stage
    (if runId.isEmpty then toString ts else runId) ts ht h

/-- Helper: stamping a blank snapshot appends the stage comment to the
stage-labelled fallback document. -/
theorem stamp_blank_eq (lib : DomLib) (html stage runId : String)
    (ts : Nat) (hstage : stage.isEmpty = false) (ht : jsTrim html = "") :
    stampDomSnapshot lib html stage runId ts
      = buildFallbackDom ("DOM " ++ stage)
        ++ mkStampComment stage
            (if runId.isEmpty then toString ts else runId) ts := by
  simp [stampDomSnapshot, safeCheerioLoad, ht, hstage]

/-- Helper: the HTML produced by `applyInstructionEffects` always loads
with a body (serialized document or fallback document). -/
theorem applyInstructionEffects_obs (lib : DomLib) (hspec : DomLibSpec lib)
    (source : String) (details : InstructionDetails)
    (m : List (String × SelectorEntry)) (url : String) :
    ∃ v, obsStage lib (applyInstructionEffects lib source details m url).1
      = some v := by
  cases hload : safeCheerioLoad lib source with
  | some d =>
    simp only [applyInstructionEffects, hload]
    exact ⟨_, hspec.roundtrip _⟩
  | none =>
    simp only [applyInstructionEffects, hload]
    unfold synthesizeDomAfter
    rw [hload]
    cases hobs : obsStage lib (buildFallbackDom "DOM after (synthetic)") with
    | none => exact absurd hobs (hspec.fallbackLoads _)
    | some v => exact ⟨v, rfl⟩

/-- Helper: the current-state HTML built from a loadable after-state loads
with a body. -/
theorem buildCurrentStateDom_obs (lib : DomLib) (hspec : DomLibSpec lib)
    (afterHtml : String) (res : HealingRun) (details : InstructionDetails)
    (genAt : String) (v : Option String)
    (h : obsStage lib afterHtml = some v) :
    ∃ v2, obsStage lib
        (buildCurrentStateDom lib afterHtml res details genAt) = some v2 := by
  unfold obsStage at h
  cases hload : safeCheerioLoad lib afterHtml with
  | none => simp [hload] at h
  | some d =>
    simp only [buildCurrentStateDom, hload]
    exact ⟨_, hspec.roundtrip _⟩

/-- Helper: the stage comments for `before` and `after` differ at character
level, whatever the run ids and timestamps. -/
theorem mkStampComment_data_ne (r1 r2 : String) (t1 t2 : Nat) :
    (mkStampComment "before" r1 t1).data
      ≠ (mkStampComment "after" r2 t2).data := by
  intro h
  simp only [mkStampComment, String.data_append, List.append_assoc] at h
  have h2 := List.append_cancel_left h
  simp [List.cons_append] at h2

/-- Helper: a common base followed by the `before` and `after` stage
comments yields distinct strings. -/
theorem trimmed_comment_ne (b r1 r2 : String) (t1 t2 : Nat) :
    b ++ mkStampComment "before" r1 t1 ≠ b ++ mkStampComment "after" r2 t2 := by
  intro h
  have hd := congrArg String.data h
  rw [String.data_append, String.data_append] at hd
  exact mkStampComment_data_ne r1 r2 t1 t2 (List.append_cancel_left hd)

/-- Helper: the stage-labelled fallback documents with their stage comments
are distinct for `before` and `after`. -/
theorem fallback_comment_ne (r1 r2 : String) (t1 t2 : Nat) :
    buildFallbackDom ("DOM " ++ "before") ++ mkStampComment "before" r1 t1
      ≠ buildFallbackDom ("DOM " ++ "after")
          ++ mkStampComment "after" r2 t2 := by
  intro h
  have hd := congrArg String.data h
  simp only [buildFallbackDom, String.data_append, List.append_assoc] at hd
  have h2 := List.append_cancel_left hd
  have h3 := List.append_cancel_left h2
  simp [List.cons_append] at h3

/-- Helper: fallback documents trim to nonempty strings. -/
theorem fallbackDom_trim_ne (label : String) :
    jsTrim (buildFallbackDom label) ≠ "" := by
  have e : (buildFallbackDom label).data
      = '<' :: (("!doctype html><html><head><meta charset=\"utf-8\"><title>Self-Healing Snapshot</title></head><body data-self-healing-fallback=\"true\"><main><h1>" : String).data
          ++ (label.data
          ++ ("</h1></main></body></html>" : String).data)) := by
    simp [buildFallbackDom, String.data_append]
  exact trim_ne_empty_of_head _ '<' _ e (by decide)

/-- C8: for every base HTML input (including identical or empty input for
all stages) the three snapshots produced by `buildDynamicDomSnapshots` and
stamped by `stampDomSnapshot` — before, after and current — are pairwise
distinct strings; and, in particular, stamping the same HTML as `before`
and as `after` always yields two different strings.  The hypotheses
(`DomLibSpec`) are the serialization facts of the cheerio boundary. -/
theorem buildDynamicDomSnapshots_pairwise_distinct (lib : DomLib)
    (hspec : DomLibSpec lib) (baseDom : String)
    (details : InstructionDetails) (m : List (String × SelectorEntry))
    (url runId : String) (ts1 ts2 ts3 : Nat) (genAt : String) :
    ((buildDynamicDomSnapshots lib baseDom details m url runId ts1 ts2 ts3
        genAt).1
      ≠ (buildDynamicDomSnapshots lib baseDom details m url runId ts1 ts2 ts3
        genAt).2.1)
    ∧ ((buildDynamicDomSnapshots lib baseDom details m url runId ts1 ts2 ts3
        genAt).1
      ≠ (buildDynamicDomSnapshots lib baseDom details m url runId ts1 ts2 ts3
        genAt).2.2)
    ∧ ((buildDynamicDomSnapshots lib baseDom details m url runId ts1 ts2 ts3
        genAt).2.1
      ≠ (buildDynamicDomSnapshots lib baseDom details m url runId ts1 ts2 ts3
        genAt).2.2)
    ∧ (∀ (html r1 r2 : String) (t1 t2 : Nat),
        stampDomSnapshot lib html "before" r1 t1
          ≠ stampDomSnapshot lib html "after" r2 t2) := by
  have key : ∀ S : String, jsTrim S ≠ "" →
      (stampDomSnapshot lib S "before" (runId ++ "-before") ts1
        ≠ stampDomSnapshot lib
            (applyInstructionEffects lib S details m url).1
            "after" (runId ++ "-after") ts2)
      ∧ (stampDomSnapshot lib S "before" (runId ++ "-before") ts1
        ≠ stampDomSnapshot lib
            (buildCurrentStateDom lib
              (applyInstructionEffects lib S details m url).1
              (applyInstructionEffects lib S details m url).2 details genAt)
            "current" (runId ++ "-current") ts3)
      ∧ (stampDomSnapshot lib (applyInstructionEffects lib S details m url).1
            "after" (runId ++ "-after") ts2
        ≠ stampDomSnapshot lib
            (buildCurrentStateDom lib
              (applyInstructionEffects lib S details m url).1
              (applyInstructionEffects lib S details m url).2 details genAt)
            "current" (runId ++ "-current") ts3) := by
    intro S hS
    obtain ⟨va, hva⟩ := applyInstructionEffects_obs lib hspec S details m url
    have hafter := stamp_obs_loads lib hspec
      (applyInstructionEffects lib S details m url).1 "after"
      (runId ++ "-after") ts2 va (by decide) hva
    obtain ⟨vc, hvc⟩ := buildCurrentStateDom_obs lib hspec
      (applyInstructionEffects lib S details m url).1
      (applyInstructionEffects lib S details m url).2 details genAt va hva
    have hcurrent := stamp_obs_loads lib hspec
      (buildCurrentStateDom lib (applyInstructionEffects lib S details m url).1
        (applyInstructionEffects lib S details m url).2 details genAt)
      "current" (runId ++ "-current") ts3 vc (by decide) hvc
    cases hobs : obsStage lib S with
    | some vb =>
      have hbefore := stamp_obs_loads lib hspec S "before"
        (runId ++ "-before") ts1 vb (by decide) hobs
      exact ⟨obs_distinguishes lib _ _ (by rw [hbefore, hafter]; decide),
        obs_distinguishes lib _ _ (by rw [hbefore, hcurrent]; decide),
        obs_distinguishes lib _ _ (by rw [hafter, hcurrent]; decide)⟩
    | none =>
      have hbefore := stamp_obs_none lib hspec S "before"
        (runId ++ "-before") ts1 (by decide) hS hobs
      exact ⟨obs_distinguishes lib _ _ (by rw [hbefore, hafter]; simp),
        obs_distinguishes lib _ _ (by rw [hbefore, hcurrent]; simp),
        obs_distinguishes lib _ _ (by rw [hafter, hcurrent]; decide)⟩
  have hpart4 : ∀ (html r1 r2 : String) (t1 t2 : Nat),
      stampDomSnapshot lib html "before" r1 t1
        ≠ stampDomSnapshot lib html "after" r2 t2 := by
    intro html r1 r2 t1 t2
    cases hobs : obsStage lib html with
    | some a =>
      exact obs_distinguishes lib _ _ (by
        rw [stamp_obs_loads lib hspec html "before" r1 t1 a (by decide) hobs,
          stamp_obs_loads lib hspec html "after" r2 t2 a (by decide) hobs]
        decide)
    | none =>
      by_cases ht : jsTrim html = ""
      · rw [stamp_blank_eq lib html "before" r1 t1 (by decide) ht,
          stamp_blank_eq lib html "after" r2 t2 (by decide) ht]
        exact fallback_comment_ne _ _ t1 t2
      · rw [stamp_comment_eq lib html "before" r1 t1 (by decide) ht hobs,
          stamp_comment_eq lib html "after" r2 t2 (by decide) ht hobs]
        exact trimmed_comment_ne _ _ _ t1 t2
  by_cases hb : jsTrim baseDom = ""
  · have hk := key (buildFallbackDom "DOM before") (fallbackDom_trim_ne _)
    refine ⟨?_, ?_, ?_, hpart4⟩
    · simpa [buildDynamicDomSnapshots, hb] using hk.1
    · simpa [buildDynamicDomSnapshots, hb] using hk.2.1
    · simpa [buildDynamicDomSnapshots, hb] using hk.2.2
  · have hk := key baseDom hb
    refine ⟨?_, ?_, ?_, hpart4⟩
    · simpa [buildDynamicDomSnapshots, hb] using hk.1
    · simpa [buildDynamicDomSnapshots, hb] using hk.2.1
    · simpa [buildDynamicDomSnapshots, hb] using hk.2.2

/-- Helper: decoding an escaped run with its terminator recovers it. -/
theorem descanSt_escChars (l : List Char) :
    descanSt false (escChars l ++ ['|']) = some l := by
  induction l with
  | nil => rfl
  | cons c rest ih =>
    by_cases hc : (c = '\\' || c = '|') = true
    · simp only [escChars, hc, if_true, List.cons_append]
      have h1 : descanSt false ('\\' :: c :: (escChars rest ++ ['|']))
          = descanSt true (c :: (escChars rest ++ ['|'])) := by
        simp [descanSt]
      rw [h1]
      simp [descanSt, ih]
    · have hc1 : ¬ c = '\\' := by
        intro h; rw [h] at hc; simp at hc
      have hc2 : ¬ c = '|' := by
        intro h; rw [h] at hc; simp at hc
      simp only [escChars, hc, if_false, Bool.false_eq_true, List.cons_append]
      simp [descanSt, hc1, hc2, ih]

/-- Helper: a successful decode requires the input to end in the
terminator. -/
theorem descanSt_getLast (l : List Char) :
    ∀ (esc : Bool) (v : List Char),
      descanSt esc l = some v → l.getLast? = some '|' := by
  induction l with
  | nil => intro esc v h; cases esc <;> simp [descanSt] at h
  | cons c rest ih =>
    intro esc v h
    cases esc with
    | true =>
      simp only [descanSt] at h
      cases hr : descanSt false rest with
      | none => rw [hr] at h; simp at h
      | some v2 =>
        have hlast := ih false v2 hr
        cases rest with
        | nil => simp [descanSt] at hr
        | cons r rs => rw [List.getLast?_cons_cons]; exact hlast
    | false =>
      by_cases h1 : c = '\\'
      · subst h1
        simp only [descanSt, if_pos rfl] at h
        have hlast := ih true v h
        cases rest with
        | nil => simp [descanSt] at h
        | cons r rs => rw [List.getLast?_cons_cons]; exact hlast
      · by_cases h2 : c = '|'
        · subst h2
          simp only [descanSt, if_neg h1, if_pos rfl] at h
          by_cases h3 : rest.isEmpty = true
          · have : rest = [] := List.isEmpty_iff.1 h3
            subst this
            rfl
          · simp [h3] at h
        · simp only [descanSt, if_neg h1, if_neg h2] at h
          cases hr : descanSt false rest with
          | none => rw [hr] at h; simp at h
          | some v2 =>
            have hlast := ih false v2 hr
            cases rest with
            | nil => simp [descanSt] at hr
            | cons r rs => rw [List.getLast?_cons_cons]; exact hlast

/-- Helper: stamp comments are nonempty and end in `>`. -/
theorem mkStampComment_last (stage runId : String) (ts : Nat) :
    (mkStampComment stage runId ts).data.getLast? = some '>'
      ∧ (mkStampComment stage runId ts).data ≠ [] := by
  constructor
  · unfold mkStampComment
    rw [String.data_append]
    rw [List.getLast?_append_of_ne_nil _ (by decide)]
    decide
  · unfold mkStampComment
    rw [String.data_append]
    intro h
    rcases List.append_eq_nil.1 h with ⟨_, h2⟩
    exact absurd h2 (by decide)

/-- Helper: the fallback document's character form starts with `<`. -/
theorem fallbackDom_data (label : String) :
    (buildFallbackDom label).data
      = '<' :: (("!doctype html><html><head><meta charset=\"utf-8\"><title>Self-Healing Snapshot</title></head><body data-self-healing-fallback=\"true\"><main><h1>" : String).data
          ++ (label.data
          ++ ("</h1></main></body></html>" : String).data)) := by
  simp [buildFallbackDom, String.data_append]

/-- Helper: the toy serializer round-trips the stage attribute. -/
theorem toyLib_roundtrip (d : String → Option String) :
    obsStage toyLib (toyLib.serialize d)
      = some (toyLib.getBodyAttr d stageKey) := by
  cases hd : d stageKey with
  | none =>
    have hs : toyLib.serialize d = "N" := by simp [toyLib, hd]
    rw [hs]
    show obsStage toyLib "N" = some (d stageKey)
    rw [hd]
    decide
  | some v =>
    have hs : toyLib.serialize d = "S" ++ String.mk (escChars v.data) ++ "|" := by
      simp [toyLib, hd]
    rw [hs]
    show obsStage toyLib ("S" ++ String.mk (escChars v.data) ++ "|")
      = some (d stageKey)
    rw [hd]
    have hdata : ("S" ++ String.mk (escChars v.data) ++ "|").data
        = 'S' :: (escChars v.data ++ ['|']) := by
      simp [String.data_append]
    have htrim : ¬ jsTrim ("S" ++ String.mk (escChars v.data) ++ "|") = "" :=
      trim_ne_empty_of_head _ 'S' _ hdata (by decide)
    have hparse : toyParse ("S" ++ String.mk (escChars v.data) ++ "|")
        = some (fun k => if k = stageKey then some (String.mk v.data)
            else none) := by
      unfold toyParse
      rw [hdata, List.dropWhile_cons_of_neg (by decide)]
      simp only [toyDecode, if_neg (by decide : ¬ ('S' : Char) = 'N'),
        if_pos rfl]
      rw [descanSt_escChars]
      rfl
    have hload : safeCheerioLoad toyLib
        ("S" ++ String.mk (escChars v.data) ++ "|")
        = some (fun k => if k = stageKey then some (String.mk v.data)
            else none) := by
      unfold safeCheerioLoad
      rw [if_neg htrim]
      exact hparse
    simp only [obsStage, hload]
    simp [toyLib, stringMk_data]

/-- Helper: the toy parser accepts fallback documents (no stage attribute). -/
theorem toyLib_fallbackLoads (label : String) :
    obsStage toyLib (buildFallbackDom label) ≠ none := by
  have htrim := fallbackDom_trim_ne label
  have hparse : toyParse (buildFallbackDom label)
      = some (fun k => if k = stageKey then none else none) := by
    unfold toyParse
    rw [fallbackDom_data label, List.dropWhile_cons_of_neg (by decide)]
    simp only [toyDecode, if_neg (by decide : ¬ ('<' : Char) = 'N'),
      if_neg (by decide : ¬ ('<' : Char) = 'S'), if_pos rfl]
    rfl
  have hload : safeCheerioLoad toyLib (buildFallbackDom label)
      = some (fun k => if k = stageKey then none else none) := by
    unfold safeCheerioLoad
    rw [if_neg htrim]
    exact hparse
  simp only [obsStage, hload]
  simp [toyLib]

/-- Helper: appending a stage comment to the trimmed form of a string that
the toy parser rejects yields a string it still rejects. -/
theorem toyLib_commentAppend (s stage runId : String) (ts : Nat)
    (hne : jsTrim s ≠ "") (hobs : obsStage toyLib s = none) :
    obsStage toyLib (jsTrim s ++ mkStampComment stage runId ts) = none := by
  have hparse : toyParse s = none := by
    cases hp2 : toyParse s with
    | none => rfl
    | some doc =>
      have hload : safeCheerioLoad toyLib s = some doc := by
        unfold safeCheerioLoad
        rw [if_neg hne]
        exact hp2
      simp only [obsStage, hload] at hobs
      simp [toyLib] at hobs
  have hdec : toyDecode (s.data.dropWhile isJsWs) = none := by
    unfold toyParse at hparse
    cases hd : toyDecode (s.data.dropWhile isJsWs) with
    | none => rfl
    | some st => rw [hd] at hparse; simp at hparse
  obtain ⟨w, hw, _⟩ := trim_decomp s
  cases hc : (jsTrim s).data with
  | nil =>
    refine absurd ((jsTrim_eq_empty_iff s).2 ?_) hne
    have he : jsTrimChars s.data = (jsTrim s).data := rfl
    rw [he, hc]
  | cons c t =>
    have hcws : isJsWs c = false := trim_head_not_ws s c t hc
    rw [hw, hc] at hdec
    simp only [List.cons_append] at hdec
    have hdata : (jsTrim s ++ mkStampComment stage runId ts).data
        = c :: (t ++ (mkStampComment stage runId ts).data) := by
      rw [String.data_append, hc]
      simp [List.cons_append]
    have hcore : toyDecode ((jsTrim s
        ++ mkStampComment stage runId ts).data.dropWhile isJsWs) = none := by
      rw [hdata, List.dropWhile_cons_of_neg (by simp [hcws])]
      by_cases hN : c = 'N'
      · subst hN
        have hemp : ¬ ((t ++ (mkStampComment stage runId ts).data).isEmpty
            = true) := by
          intro hista
          have h0 := List.isEmpty_iff.1 hista
          rcases List.append_eq_nil.1 h0 with ⟨_, h2⟩
          exact (mkStampComment_last stage runId ts).2 h2
        simp only [toyDecode, if_true]
        rw [if_neg hemp]
      · by_cases hS : c = 'S'
        · subst hS
          simp only [toyDecode, if_true]
          cases hds : descanSt false
              (t ++ (mkStampComment stage runId ts).data) with
          | none => rfl
          | some v =>
            have hlast := descanSt_getLast _ false v hds
            rw [List.getLast?_append_of_ne_nil _
              (mkStampComment_last stage runId ts).2] at hlast
            rw [(mkStampComment_last stage runId ts).1] at hlast
            exact absurd hlast (by decide)
        · by_cases hLt : c = '<'
          · subst hLt
            simp [toyDecode] at hdec
          · simp only [toyDecode]
            rw [if_neg hN, if_neg hS, if_neg hLt]
    by_cases hg : jsTrim (jsTrim s ++ mkStampComment stage runId ts) = ""
    · simp [obsStage, safeCheerioLoad, hg]
    · have hp2 : toyParse (jsTrim s ++ mkStampComment stage runId ts)
          = none := by
        unfold toyParse
        rw [hcore]
      have hload : safeCheerioLoad toyLib
          (jsTrim s ++ mkStampComment stage runId ts) = none := by
        unfold safeCheerioLoad
        rw [if_neg hg]
        exact hp2
      simp [obsStage, hload]

/-- The toy library satisfies the cheerio boundary facts. -/
theorem toyLib_spec : DomLibSpec toyLib :=
  ⟨toyLib_roundtrip, fun _ _ _ _ => rfl, toyLib_commentAppend,
    toyLib_fallbackLoads⟩

/-- Witness for `buildDynamicDomSnapshots_pairwise_distinct`: the concrete
toy library, which provably satisfies `DomLibSpec`, applied to an empty
base input (identical input for all stages). -/
theorem buildDynamicDomSnapshots_pairwise_distinct_witness :
    ((buildDynamicDomSnapshots toyLib "" ⟨false, false, none, none⟩ []
        "https://ex.com" "w1" 1 2 3 "t").1
      ≠ (buildDynamicDomSnapshots toyLib "" ⟨false, false, none, none⟩ []
        "https://ex.com" "w1" 1 2 3 "t").2.1)
    ∧ ((buildDynamicDomSnapshots toyLib "" ⟨false, false, none, none⟩ []
        "https://ex.com" "w1" 1 2 3 "t").1
      ≠ (buildDynamicDomSnapshots toyLib "" ⟨false, false, none, none⟩ []
        "https://ex.com" "w1" 1 2 3 "t").2.2)
    ∧ ((buildDynamicDomSnapshots toyLib "" ⟨false, false, none, none⟩ []
        "https://ex.com" "w1" 1 2 3 "t").2.1
      ≠ (buildDynamicDomSnapshots toyLib "" ⟨false, false, none, none⟩ []
        "https://ex.com" "w1" 1 2 3 "t").2.2)
    ∧ (stampDomSnapshot toyLib "<p>same</p>" "before" "w1-before" 1
        ≠ stampDomSnapshot toyLib "<p>same</p>" "after" "w1-after" 2) :=
  ⟨(buildDynamicDomSnapshots_pairwise_distinct toyLib toyLib_spec ""
      ⟨false, false, none, none⟩ [] "https://ex.com" "w1" 1 2 3 "t").1,
    (buildDynamicDomSnapshots_pairwise_distinct toyLib toyLib_spec ""
      ⟨false, false, none, none⟩ [] "https://ex.com" "w1" 1 2 3 "t").2.1,
    (buildDynamicDomSnapshots_pairwise_distinct toyLib toyLib_spec ""
      ⟨false, false, none, none⟩ [] "https://ex.com" "w1" 1 2 3 "t").2.2.1,
    (buildDynamicDomSnapshots_pairwise_distinct toyLib toyLib_spec ""
      ⟨false, false, none, none⟩ [] "https://ex.com" "w1" 1 2 3 "t").2.2.2
      "<p>same</p>" "w1-before" "w1-after" 1 2⟩

/-- Helper: the inlined overflow bound is `2 ^ 1024 - 2 ^ 970` — the
round-to-nearest-even threshold above `Number.MAX_VALUE` at which a double
conversion yields `Infinity`. -/
theorem jsOverflowBound_eq : jsOverflowBound = 2 ^ 1024 - 2 ^ 970 := by
  norm_num [jsOverflowBound]
